import Mathlib

/-!
Verification of the Assignment & Resolution Engine of the echo-of-smartice
repository against its natural-language specification.

The engine lives in the service layer (`src/services/qrcodeService.ts`,
`src/services/questionnaireService.ts` v3.0.0) and operates on five tables of
the identity store documented in `database_architecture.md`:
`echo_table`, `echo_qrcode`, `echo_questionnaire`,
`echo_qrcode_questionnaire` (the Assignment junction) and `echo_answers`.

The store is modelled as explicit lists of rows.  Two constraints documented in
`database_architecture.md` are part of the store model because the services
rely on them:
  * UNIQUE (`qrcode_id`, `questionnaire_id`) on `echo_qrcode_questionnaire`;
  * UNIQUE `table_id` on `echo_qrcode` (the 1:1 table/qr-code link).
A store write that would violate a constraint reports an error, exactly as
Postgres rejects the offending INSERT statement, and commits nothing.

Each service function becomes a Lean function from a `Store` (plus its
arguments) to a pair of the returned/thrown value and the store left behind.
TypeScript `throw new Error(msg)` becomes `Except.error msg`.  Storage failures
other than constraint violations are injected through explicit boolean
parameters (`insertFails` and friends), one per write statement the function
issues; `false` everywhere models a healthy store.  Timestamp columns
(`created_at`, `assigned_at`, `deactivated_at`) are not modelled: no claim
mentions them.  UUIDs are modelled as naturals; the database-assigned ids of
junction rows come from a `nextAid` counter in the store, and the client-side
`crypto.randomUUID()` of `generateQRCodeForTable` becomes an explicit
`newQrId` argument.
-/

/-- Row of `echo_questionnaire` (TS interface `EchoQuestionnaire`).  The
`questions`, `description` and legacy columns are omitted: the engine claims
touch only `id`, `title` and `is_active`.  Question structure is modelled
separately for `validateQuestions`. -/
structure EchoQuestionnaire where
  id : Nat
  title : String
  is_active : Bool
deriving Repr, DecidableEq

/-- Row of `echo_table` (TS interface `EchoTable`). -/
structure EchoTable where
  id : Nat
  restaurant_id : Nat
  table_number : String
deriving Repr, DecidableEq

/-- Row of `echo_qrcode` (TS interface `EchoQRCode`); `qr_code_value` is
omitted (an opaque URL string never inspected by the engine). -/
structure EchoQRCode where
  id : Nat
  table_id : Nat
deriving Repr, DecidableEq

/-- Row of the Assignment junction `echo_qrcode_questionnaire`
(TS interface `EchoQRCodeQuestionnaire`). -/
structure EchoQRCodeQuestionnaire where
  id : Nat
  qrcode_id : Nat
  questionnaire_id : Nat
  is_active : Bool
  weight : Int
deriving Repr, DecidableEq

/-- The identity store: the four tables the Assignment & Resolution Engine
reads and writes, plus the id sequence for junction rows. -/
structure Store where
  tables : List EchoTable
  qrcodes : List EchoQRCode
  questionnaires : List EchoQuestionnaire
  assignments : List EchoQRCodeQuestionnaire
  nextAid : Nat
deriving Repr, DecidableEq

/-- `select * from echo_qrcode_questionnaire where qrcode_id = ? and is_active = true`:
the read both `checkExistingAssignments` and `getQuestionnairesForQRCode`
start from. -/
def activeAssignmentsFor (s : Store) (qrcodeId : Nat) : List EchoQRCodeQuestionnaire :=
  s.assignments.filter (fun a => a.qrcode_id == qrcodeId && a.is_active)

/-- Embedded `echo_questionnaire(...)` lookup: the questionnaire a junction row
references, if it exists. -/
def findQuestionnaire (s : Store) (questionnaireId : Nat) : Option EchoQuestionnaire :=
  s.questionnaires.find? (fun q => q.id == questionnaireId)

/-- Embedded `echo_qrcode!table_id(...)` lookup: the (at most one, by the
UNIQUE `table_id` constraint) qr code of a table. -/
def qrcodeForTable (s : Store) (tableId : Nat) : Option EchoQRCode :=
  s.qrcodes.find? (fun c => c.table_id == tableId)

/-- Row to be inserted into `echo_qrcode_questionnaire` (the object literals
built by the assignment functions before calling `.insert`). -/
structure AssignmentInsert where
  qrcode_id : Nat
  questionnaire_id : Nat
  is_active : Bool
  weight : Int
deriving Repr, DecidableEq

/-- Store-level single-row INSERT into `echo_qrcode_questionnaire`.  Enforces
the UNIQUE (`qrcode_id`, `questionnaire_id`) constraint documented in
`database_architecture.md`; on violation the write errors and commits
nothing.  The store assigns the row id from its sequence. -/
def insertAssignmentRow (s : Store) (r : AssignmentInsert) :
    Except String (EchoQRCodeQuestionnaire × Store) :=
  if s.assignments.any (fun a =>
      a.qrcode_id == r.qrcode_id && a.questionnaire_id == r.questionnaire_id) then
    Except.error "duplicate key value violates unique constraint"
  else
    let row : EchoQRCodeQuestionnaire :=
      ⟨s.nextAid, r.qrcode_id, r.questionnaire_id, r.is_active, r.weight⟩
    Except.ok (row, { s with assignments := s.assignments ++ [row], nextAid := s.nextAid + 1 })

/-- Store-level multi-row INSERT into `echo_qrcode_questionnaire`.  A Postgres
multi-row INSERT is atomic: if any row violates the unique constraint
(against existing rows or an earlier row of the same statement) the whole
statement errors and commits nothing — the caller keeps its original store on
error. -/
def insertAssignmentRows (s : Store) : List AssignmentInsert → Except String Store
  | [] => Except.ok s
  | r :: rest =>
    match insertAssignmentRow s r with
    | Except.error e => Except.error e
    | Except.ok (_, s') => insertAssignmentRows s' rest

/-- Store-level INSERT into `echo_qrcode`; enforces the UNIQUE `table_id`
(and primary-key) constraints documented in `database_architecture.md`. -/
def insertQRCodeRow (s : Store) (qrId tableId : Nat) : Except String (EchoQRCode × Store) :=
  if s.qrcodes.any (fun c => c.id == qrId || c.table_id == tableId) then
    Except.error "duplicate key value violates unique constraint"
  else
    let row : EchoQRCode := ⟨qrId, tableId⟩
    Except.ok (row, { s with qrcodes := s.qrcodes ++ [row] })

/-- Result shape of `checkExistingAssignments`. -/
structure ExistingCheck where
  hasAssignments : Bool
  existingQuestionnaires : List String
deriving Repr, DecidableEq

/-- `checkExistingAssignments` (questionnaireService.ts v3.0.0): selects the
ACTIVE junction rows of a qr code together with the embedded questionnaire
title ('Unknown' when the embed is null).  Only the assignment-level
`is_active` flag is filtered. -/
def checkExistingAssignments (s : Store) (qrcodeId : Nat) : ExistingCheck :=
  let data := activeAssignmentsFor s qrcodeId
  { hasAssignments := !data.isEmpty,
    existingQuestionnaires := data.map (fun a =>
      match findQuestionnaire s a.questionnaire_id with
      | some q => q.title
      | none => "Unknown") }

/-- The conflict message thrown by `assignQuestionnaireToQRCode` (its
`ConflictError`). -/
def conflictMessage (titles : List String) : String :=
  "This table already has a questionnaire assigned: \"" ++
    String.intercalate ", " titles ++
    "\". Please remove the existing assignment before assigning a new one."

/-- `assignQuestionnaireToQRCode` (questionnaireService.ts v3.0.0): the manual
single-assignment operation.  TS defaults `weight` to 100; callers of the
model pass the weight explicitly.  `insertFails` injects a storage failure on
the one INSERT the function issues.  Returns the thrown/returned value and the
store left behind. -/
def assignQuestionnaireToQRCode (s : Store) (qrcodeId questionnaireId : Nat)
    (weight : Int) (insertFails : Bool) :
    Except String EchoQRCodeQuestionnaire × Store :=
  let check := checkExistingAssignments s qrcodeId
  if check.hasAssignments then
    (Except.error (conflictMessage check.existingQuestionnaires), s)
  else if insertFails then
    (Except.error "Failed to assign questionnaire: storage error", s)
  else
    match insertAssignmentRow s ⟨qrcodeId, questionnaireId, true, weight⟩ with
    | Except.error e => (Except.error ("Failed to assign questionnaire: " ++ e), s)
    | Except.ok (row, s') => (Except.ok row, s')

/-- `deactivateAssignment` (questionnaireService.ts v3.0.0): soft delete; sets
`is_active := false` on the junction row (the `deactivated_at` timestamp is not
modelled). -/
def deactivateAssignment (s : Store) (assignmentId : Nat) : Except String Unit × Store :=
  (Except.ok (), { s with assignments := s.assignments.map (fun a =>
      if a.id == assignmentId then { a with is_active := false } else a) })

/-- The `echo_qrcode!inner(echo_table!inner(restaurant_id))` join of
`getQuestionnairesForRestaurant`: the restaurant a junction row belongs to,
through its qr code's table.  `none` when the inner join finds no row. -/
def assignmentRestaurant (s : Store) (a : EchoQRCodeQuestionnaire) : Option Nat :=
  match s.qrcodes.find? (fun c => c.id == a.qrcode_id) with
  | none => none
  | some c =>
    match s.tables.find? (fun t => t.id == c.table_id) with
    | none => none
    | some t => some t.restaurant_id

/-- The `uniqueQuestionnaires` Map loop of `getQuestionnairesForRestaurant`
(qrcodeService.ts v1.3.0 lines 56-62): walk the fetched rows in order, keeping
the first row seen for each `questionnaire_id` (later rows for the same
questionnaire — even with a different weight — are dropped). -/
def uniqueByQuestionnaire (seen : List Nat) : List EchoQRCodeQuestionnaire → List (Nat × Int)
  | [] => []
  | a :: rest =>
    if seen.contains a.questionnaire_id then
      uniqueByQuestionnaire seen rest
    else
      (a.questionnaire_id, a.weight) :: uniqueByQuestionnaire (a.questionnaire_id :: seen) rest

/-- `getQuestionnairesForRestaurant` (qrcodeService.ts v1.3.0 lines 37-68):
the active junction rows whose qr code's table belongs to the restaurant
(inner joins), deduplicated by questionnaire id, as
`(questionnaire_id, weight)` pairs. -/
def getQuestionnairesForRestaurant (s : Store) (restaurantId : Nat) : List (Nat × Int) :=
  let data := s.assignments.filter (fun a =>
    a.is_active && assignmentRestaurant s a == some restaurantId)
  uniqueByQuestionnaire [] data

/-- `generateQRCodeForTable` (qrcodeService.ts v1.3.0 lines 79-146): fetch the
table's `restaurant_id`, insert the new qr-code row, then auto-assign the
restaurant's questionnaire mix onto it (provisioning propagation).  A failure
of the propagation INSERT is only `console.warn`-ed — the function still
returns the created qr code (lines 127-130); likewise when the restaurant has
no questionnaires (line 132).  `newQrId` models `crypto.randomUUID()`;
`qrInsertFails`/`assignInsertFails` inject storage failures on the two writes.
QR-code image generation is external and not modelled. -/
def generateQRCodeForTable (s : Store) (tableId newQrId : Nat)
    (qrInsertFails assignInsertFails : Bool) : Except String EchoQRCode × Store :=
  match s.tables.find? (fun t => t.id == tableId) with
  | none => (Except.error "Failed to fetch table data: Table not found", s)
  | some tableData =>
    if qrInsertFails then
      (Except.error "Failed to create QR code: storage error", s)
    else
      match insertQRCodeRow s newQrId tableId with
      | Except.error e => (Except.error ("Failed to create QR code: " ++ e), s)
      | Except.ok (row, s1) =>
        let questionnaires := getQuestionnairesForRestaurant s1 tableData.restaurant_id
        if questionnaires.isEmpty then
          (Except.ok row, s1)
        else
          let rows := questionnaires.map (fun p => AssignmentInsert.mk newQrId p.1 true p.2)
          if assignInsertFails then
            (Except.ok row, s1)
          else
            match insertAssignmentRows s1 rows with
            | Except.error _ => (Except.ok row, s1)
            | Except.ok s2 => (Except.ok row, s2)

/-- Entry of the `skippedTables` list returned by
`assignQuestionnaireToRestaurant`. -/
structure SkippedTable where
  table_number : String
  questionnaires : List String
deriving Repr, DecidableEq

/-- Result shape of `assignQuestionnaireToRestaurant` (v2.6.0): the
`{assignedCount, skippedCount, skippedTables}` statistics object (the spec
calls the last field `skippedDetail`). -/
structure RestaurantAssignResult where
  assignedCount : Nat
  skippedCount : Nat
  skippedTables : List SkippedTable
deriving Repr, DecidableEq

/-- The partition loop of `assignQuestionnaireToRestaurant` (v2.6.0 lines
1150-1168): walk the qr-coded tables in order, putting tables whose qr code
has an active assignment into `skippedTables` (with the existing titles) and
the rest into `tablesWithoutAssignments`.  Returns
(tablesWithoutAssignments, skippedTables). -/
def partitionTablesByAssignment (s : Store) :
    List EchoTable → List EchoTable × List SkippedTable
  | [] => ([], [])
  | t :: rest =>
    match qrcodeForTable s t.id with
    | none => partitionTablesByAssignment s rest
    | some c =>
      let check := checkExistingAssignments s c.id
      let p := partitionTablesByAssignment s rest
      if check.hasAssignments then
        (p.1, ⟨t.table_number, check.existingQuestionnaires⟩ :: p.2)
      else
        (t :: p.1, p.2)

/-- The `AllAssignedError` message of `assignQuestionnaireToRestaurant`
(lines 1179-1182). -/
def allAssignedMessage (n : Nat) : String :=
  "All " ++ toString n ++
    " table(s) in this restaurant already have questionnaire assignments. No new assignments were created."

/-- The "no tables" error message of `assignQuestionnaireToRestaurant`
(line 1106). -/
def noTablesMessage : String := "No tables found for this restaurant"

/-- The "no QR codes" error message of `assignQuestionnaireToRestaurant`
(line 1145). -/
def noQRCodesMessage : String :=
  "No QR codes found for this restaurant. Please generate QR codes first."

/-- `assignQuestionnaireToRestaurant` (questionnaireService.ts v2.6.0 lines
1070-1207): fetch the restaurant's tables with their qr codes, error when
there are none ("no tables") or none carries a qr code ("no QR codes");
partition the qr-coded tables by existing active assignment; error when every
one is already assigned; otherwise INSERT one active junction row per
unassigned table and return the statistics.  TS defaults `weight` to 100;
`insertFails` injects a storage failure on the one INSERT issued.  The
`getQRCodeId(...)!` of the insert map (line 1187) is modelled by `getD 0`;
the partition only admits tables whose lookup is `some`. -/
def assignQuestionnaireToRestaurant (s : Store) (restaurantId questionnaireId : Nat)
    (weight : Int) (insertFails : Bool) :
    Except String RestaurantAssignResult × Store :=
  let tables := s.tables.filter (fun t => t.restaurant_id == restaurantId)
  if tables.isEmpty then
    (Except.error noTablesMessage, s)
  else
    let tablesWithQRCodes := tables.filter (fun t => (qrcodeForTable s t.id).isSome)
    if tablesWithQRCodes.isEmpty then
      (Except.error noQRCodesMessage, s)
    else
      let p := partitionTablesByAssignment s tablesWithQRCodes
      if p.1.isEmpty then
        (Except.error (allAssignedMessage tablesWithQRCodes.length), s)
      else if insertFails then
        (Except.error "Failed to assign questionnaire to restaurant: storage error", s)
      else
        let rows := p.1.map (fun t =>
          AssignmentInsert.mk (((qrcodeForTable s t.id).map (fun c => c.id)).getD 0)
            questionnaireId true weight)
        match insertAssignmentRows s rows with
        | Except.error e =>
          (Except.error ("Failed to assign questionnaire to restaurant: " ++ e), s)
        | Except.ok s' =>
          (Except.ok ⟨p.1.length, p.2.length, p.2⟩, s')

/-- `getQuestionnairesForQRCode` (questionnaireService.ts v3.0.0 lines
683-696), the scan-time fetch.  The select embeds `echo_questionnaire(*)`
WITHOUT an inner join, so under the store's (PostgREST) semantics the filter
`.eq('echo_questionnaire.is_active', true)` restricts only the embedded
record: a junction row whose questionnaire fails the filter (or is missing) is
still returned, with a null embed.  The final `.map(item =>
item.echo_questionnaire)` therefore produces a null entry for such rows, the
declared return type `EchoQuestionnaire[]` notwithstanding — hence the
`Option` in the result element type. -/
def getQuestionnairesForQRCode (s : Store) (qrcodeId : Nat) : List (Option EchoQuestionnaire) :=
  (activeAssignmentsFor s qrcodeId).map (fun a =>
    match findQuestionnaire s a.questionnaire_id with
    | some q => if q.is_active then some q else none
    | none => none)

/-- TS `QuestionType` (types/database.ts). -/
inductive QuestionType where
  | multiple_choice
  | text_input
deriving Repr, DecidableEq

/-- TS `QuestionOption` (types/database.ts): option of a multiple-choice
question.  `value` is optional as of v2.7.0 (may be the empty string). -/
structure QuestionOption where
  label : String
  value : String
deriving Repr, DecidableEq

/-- TS `Question` (types/database.ts).  The field `type` is spelled `qtype`;
`order` is omitted (never validated or read by the engine).  `options` is
`none` when the TS field is absent. -/
structure Question where
  id : String
  text : String
  qtype : QuestionType
  options : Option (List QuestionOption)
deriving Repr, DecidableEq

/-- Result shape `{ valid, error? }` of `validateQuestions`. -/
structure ValidationResult where
  valid : Bool
  error : Option String
deriving Repr, DecidableEq

/-- JavaScript `String.prototype.trim()` as the services use it (`.trim()`
on texts and labels): strip leading and trailing whitespace.  Implemented by
structural recursion over the character list so that concrete instances
evaluate (Lean's own `String.trim` does not reduce in the kernel). -/
def jsWhitespace (c : Char) : Bool :=
  c == ' ' || c == '\t' || c == '\n' || c == '\r'

def jsTrim (s : String) : String :=
  String.mk (((s.toList.dropWhile jsWhitespace).reverse.dropWhile jsWhitespace).reverse)

/-- The inner option loop of `validateQuestions` (v3.0.0 lines 888-894):
first option of question `i` (0-based) whose label is missing or blank yields
the error message, scanning from option index `j`. -/
def validateOptionsFrom (i j : Nat) : List QuestionOption → Option String
  | [] => none
  | opt :: rest =>
    if opt.label == "" || jsTrim opt.label == "" then
      some ("Question " ++ toString (i + 1) ++ ", Option " ++ toString (j + 1) ++
        ": Label is required")
    else
      validateOptionsFrom i (j + 1) rest

/-- The main loop of `validateQuestions` (v3.0.0 lines 864-896) from question
index `i`.  The TS checks `!q.id || typeof q.id !== 'string'` and the type
membership test degenerate on well-typed values to the emptiness checks kept
here. -/
def validateQuestionsFrom (i : Nat) : List Question → ValidationResult
  | [] => ⟨true, none⟩
  | q :: rest =>
    if q.id == "" then
      ⟨false, some ("Question " ++ toString (i + 1) ++ ": ID is required")⟩
    else if q.text == "" || jsTrim q.text == "" then
      ⟨false, some ("Question " ++ toString (i + 1) ++ ": Text is required")⟩
    else
      match q.qtype, q.options with
      | QuestionType.multiple_choice, none =>
        ⟨false, some ("Question " ++ toString (i + 1) ++
          ": Multiple choice questions must have options")⟩
      | QuestionType.multiple_choice, some opts =>
        if opts.length < 2 || opts.length > 5 then
          ⟨false, some ("Question " ++ toString (i + 1) ++
            ": Multiple choice must have 2-5 options")⟩
        else
          (match validateOptionsFrom i 0 opts with
          | some e => ⟨false, some e⟩
          | none => validateQuestionsFrom (i + 1) rest)
      | QuestionType.text_input, _ => validateQuestionsFrom (i + 1) rest

/-- `validateQuestions` (questionnaireService.ts v3.0.0 lines 855-899).  The
`Array.isArray` guard is vacuous on a typed list and not modelled. -/
def validateQuestions (questions : List Question) : ValidationResult :=
  if questions.isEmpty then
    ⟨false, some "At least one question is required"⟩
  else
    validateQuestionsFrom 0 questions

/-- `createQuestionnaire` (questionnaireService.ts v3.0.0): INSERT one
`echo_questionnaire` row (the stored `questions` document is not modelled in
the row; see `EchoQuestionnaire`).  The caller supplies the new id. -/
def createQuestionnaire (s : Store) (newQid : Nat) (title : String) (isActive : Bool) :
    Except String EchoQuestionnaire × Store :=
  let row : EchoQuestionnaire := ⟨newQid, title, isActive⟩
  (Except.ok row, { s with questionnaires := s.questionnaires ++ [row] })

/-- The create path of `handleSaveQuestionnaire`
(QuestionnaireEditorPage.tsx lines 1482-1513): run `validateQuestions` first
and return its error without touching the store; only on `valid` call
`createQuestionnaire`. -/
def handleSaveQuestionnaire (s : Store) (newQid : Nat) (title : String) (isActive : Bool)
    (questions : List Question) : Except String EchoQuestionnaire × Store :=
  let validation := validateQuestions questions
  if !validation.valid then
    (Except.error (validation.error.getD "Invalid questions"), s)
  else
    createQuestionnaire s newQid title isActive

/-- Modelled from the spec: the scan-time resolver of §4.2 is not under
`src/` (the customer-facing questionnaire page is a separate application; the
repository contains only its fetch, `getQuestionnairesForQRCode`, and
pseudocode in `database_architecture.md`).  Per the spec, resolution fails
with `NoActiveQuestionnaireError` exactly when the fetched list is empty. -/
def resolveForScan (s : Store) (qrcodeId : Nat) :
    Except String (List (Option EchoQuestionnaire)) :=
  let qs := getQuestionnairesForQRCode s qrcodeId
  if qs.isEmpty then Except.error "NoActiveQuestionnaireError" else Except.ok qs

/-- Modelled from the spec: `weightedRandomSelect` of §4.2 is not under `src/`
(referenced only as pseudocode in `database_architecture.md`).  Given the
fetched assignments and a uniform draw `r` in `[0, totalWeight)`, it selects
the first assignment whose cumulative weight exceeds the draw, implemented by
walking the list and decrementing the draw. -/
def weightedRandomSelect : List EchoQRCodeQuestionnaire → ℚ → Option EchoQRCodeQuestionnaire
  | [], _ => none
  | a :: rest, r =>
    if r < (a.weight : ℚ) then some a else weightedRandomSelect rest (r - (a.weight : ℚ))

/-- The total probability mass of a fetched assignment list (§4.2 and §8 call
it `totalWeight`). -/
def totalWeight (l : List EchoQRCodeQuestionnaire) : ℚ :=
  (l.map (fun a => (a.weight : ℚ))).sum

/-- Cumulative weight of the first `i` assignments in fetch order. -/
def cumWeight (l : List EchoQRCodeQuestionnaire) (i : Nat) : ℚ :=
  ((l.take i).map (fun a => (a.weight : ℚ))).sum

deriving instance DecidableEq for Except

/-- A restaurant (id 1) with one table, its qr code, one active questionnaire
and no assignments yet: the base state several concrete runs start from. -/
def exBase : Store := ⟨[⟨1, 1, "A1"⟩], [⟨1, 1⟩], [⟨1, "Q1", true⟩], [], 1⟩

/-- `exBase` after assigning questionnaire 1 to qr code 1 and then
soft-deactivating the assignment — a state reachable through the engine's own
operations in which qr code 1 holds an INACTIVE junction row for
questionnaire 1. -/
def exInactiveDup : Store :=
  (deactivateAssignment (assignQuestionnaireToQRCode exBase 1 1 100 false).2 1).2

/-- A restaurant (id 1) with three tables, qr codes on the first two, and the
same questionnaire active on both codes with two different weights:
(Q1, 50) on code 1 and (Q1, 70) on code 2.  Table 3 has no code yet. -/
def exTwoWeights : Store :=
  ⟨[⟨1, 1, "1"⟩, ⟨2, 1, "2"⟩, ⟨3, 1, "3"⟩], [⟨1, 1⟩, ⟨2, 2⟩], [⟨1, "Q", true⟩],
    [⟨1, 1, 1, true, 50⟩, ⟨2, 2, 1, true, 70⟩], 3⟩

/-- A scan code (id 1) whose sole junction row is active but references a
questionnaire with `is_active = false`. -/
def exInactiveQuestionnaire : Store :=
  ⟨[⟨1, 1, "A1"⟩], [⟨1, 1⟩], [⟨1, "Q1", false⟩], [⟨1, 1, 1, true, 100⟩], 2⟩

/-- A store in which restaurant 1 has no tables at all. -/
def exNoTables : Store := ⟨[], [], [⟨1, "Q1", true⟩], [], 1⟩

/-- A store in which restaurant 1 has one table but no qr code. -/
def exNoQRCodes : Store := ⟨[⟨1, 1, "A1"⟩], [], [⟨1, "Q1", true⟩], [], 1⟩

/-- C4: the spec (and the function's own doc comment, "Filters by both
assignment-level and questionnaire-level is_active flags") requires the
scan-time fetch to consider only assignments whose questionnaire is active,
so that a sole assignment to a deactivated questionnaire resolves to
`NoActiveQuestionnaireError`.  On a scan code whose one active junction row
references an inactive questionnaire, the query — filtering the embed without
an inner join — returns a one-element list containing a null instead of the
empty list, so emptiness-based resolution succeeds with `[null]` instead of
failing. -/
theorem getQuestionnairesForQRCode_inactive_questionnaire_bug :
    exInactiveQuestionnaire.assignments = [⟨1, 1, 1, true, 100⟩] ∧
    findQuestionnaire exInactiveQuestionnaire 1 = some ⟨1, "Q1", false⟩ ∧
    getQuestionnairesForQRCode exInactiveQuestionnaire 1 = [none] ∧
    resolveForScan exInactiveQuestionnaire 1 ≠ Except.error "NoActiveQuestionnaireError" := by
  refine ⟨rfl, rfl, rfl, ?_⟩
  decide

/-- C1 (counterexample): in the reachable state `exInactiveDup`, qr code 1 has
NO active assignment, yet `assignQuestionnaireToQRCode` for the same
questionnaire does not insert an assignment: the store's UNIQUE
(qrcode_id, questionnaire_id) constraint rejects the insert and the call
throws, leaving the store unchanged. -/
theorem assignSingle_inactive_duplicate_counterexample :
    (checkExistingAssignments exInactiveDup 1).hasAssignments = false ∧
    (assignQuestionnaireToQRCode exInactiveDup 1 1 100 false).1 =
      Except.error "Failed to assign questionnaire: duplicate key value violates unique constraint" ∧
    (assignQuestionnaireToQRCode exInactiveDup 1 1 100 false).2 = exInactiveDup := by
  decide

/-- The propagation target stated by the spec (§4.1 ProvisionPropagation):
the set of distinct (questionnaireId, weight) pairs among active Assignments
of scan codes other than the new one in the restaurant.  Stated from the
spec's words, for comparison with the implementation's
`getQuestionnairesForRestaurant`. -/
def distinctActivePairsSpec (s : Store) (restaurantId newQrId : Nat) : List (Nat × Int) :=
  ((s.assignments.filter (fun a => a.is_active && !(a.qrcode_id == newQrId) &&
      assignmentRestaurant s a == some restaurantId)).map
    (fun a => (a.questionnaire_id, a.weight))).dedup

/-- C2 (counterexample): in `exTwoWeights` the distinct active
(questionnaire, weight) pairs on other codes are {(1,50), (1,70)}, but
provisioning table 3's new code copies only [(1,50)]: the implementation
deduplicates by questionnaire id alone, dropping the second pair. -/
theorem provisionPropagation_distinct_pairs_counterexample :
    (1, (70 : Int)) ∈ distinctActivePairsSpec exTwoWeights 1 99 ∧
    ((generateQRCodeForTable exTwoWeights 3 99 false false).2.assignments.filter
        (fun a => a.qrcode_id == 99)).map (fun a => (a.questionnaire_id, a.weight)) =
      [(1, 50)] := by
  decide

/-- C6 (counterexample): after a first `assignQuestionnaireToRestaurant` run
that succeeded on every eligible table of `exBase`, a second run with the
same questionnaire does not return `assignedCount = 0` — it throws the
all-assigned error. -/
theorem assignToRestaurant_rerun_counterexample :
    (assignQuestionnaireToRestaurant exBase 1 1 100 false).1 =
      Except.ok ⟨1, 0, []⟩ ∧
    (assignQuestionnaireToRestaurant
        (assignQuestionnaireToRestaurant exBase 1 1 100 false).2 1 1 100 false).1 =
      Except.error (allAssignedMessage 1) := by
  decide

/-- C3 (counterexample): in the reachable state `exInactiveDup`, table A1 has
no active assignment, so it is partitioned as "to assign"; the claim then
promises one new active Assignment and a returned statistics object, but the
insert violates the UNIQUE (qrcode_id, questionnaire_id) constraint (qr code
1 already holds an inactive row for questionnaire 1): the bulk call throws a
storage error — neither the statistics nor `AllAssignedError` — and creates
nothing. -/
theorem assignToRestaurant_inactive_duplicate_counterexample :
    (partitionTablesByAssignment exInactiveDup
        ((exInactiveDup.tables.filter (fun t => t.restaurant_id == 1)).filter
          (fun t => (qrcodeForTable exInactiveDup t.id).isSome))).1.length = 1 ∧
    (assignQuestionnaireToRestaurant exInactiveDup 1 1 100 false).1 =
      Except.error
        "Failed to assign questionnaire to restaurant: duplicate key value violates unique constraint" ∧
    (assignQuestionnaireToRestaurant exInactiveDup 1 1 100 false).2 = exInactiveDup := by
  decide

/-- C8 (counterexample): provisioning table 3 of `exTwoWeights` while the
propagated-assignments INSERT reports a storage error still returns success:
the new scan code (id 99) exists in the final store with no assignments, even
though the restaurant's questionnaire mix is non-empty — a partial write the
spec says cannot be left visible. -/
theorem provisionPropagation_partial_write_counterexample :
    (generateQRCodeForTable exTwoWeights 3 99 false true).1 = Except.ok ⟨99, 3⟩ ∧
    (⟨99, 3⟩ : EchoQRCode) ∈ (generateQRCodeForTable exTwoWeights 3 99 false true).2.qrcodes ∧
    activeAssignmentsFor (generateQRCodeForTable exTwoWeights 3 99 false true).2 99 = [] ∧
    getQuestionnairesForRestaurant exTwoWeights 1 ≠ [] := by
  decide

/-- C9 (counterexample): a non-positive weight is not validated anywhere: the
manual assignment operation called with weight -5 succeeds and stores the
junction row with weight -5 instead of rejecting it before mutation. -/
theorem nonpositive_weight_accepted_counterexample :
    (assignQuestionnaireToQRCode exBase 1 1 (-5) false).1 =
      Except.ok ⟨1, 1, 1, true, -5⟩ ∧
    (⟨1, 1, 1, true, -5⟩ : EchoQRCodeQuestionnaire) ∈
      (assignQuestionnaireToQRCode exBase 1 1 (-5) false).2.assignments := by
  decide

/-- C10: for a restaurant with no tables, `assignQuestionnaireToRestaurant`
throws "No tables found for this restaurant"; for a restaurant whose tables
all lack a qr code it throws the distinct "No QR codes found..." message; in
both cases the check happens before any write, so every Assignment record
(indeed the whole store) is left unchanged. -/
theorem assignToRestaurant_empty_restaurant_errors (s : Store) (rid qid : Nat)
    (w : Int) (fail : Bool) :
    (s.tables.filter (fun t => t.restaurant_id == rid) = [] →
      assignQuestionnaireToRestaurant s rid qid w fail = (Except.error noTablesMessage, s)) ∧
    (s.tables.filter (fun t => t.restaurant_id == rid) ≠ [] →
      (s.tables.filter (fun t => t.restaurant_id == rid)).filter
          (fun t => (qrcodeForTable s t.id).isSome) = [] →
      assignQuestionnaireToRestaurant s rid qid w fail = (Except.error noQRCodesMessage, s)) ∧
    noTablesMessage ≠ noQRCodesMessage := by
  refine ⟨?_, ?_, by decide⟩
  · intro h
    simp [assignQuestionnaireToRestaurant, h]
  · intro h1 h2
    simp only [assignQuestionnaireToRestaurant, h2]
    rw [if_neg (by simpa [List.isEmpty_iff] using h1)]
    simp

/-- C10 (witness): the two error branches realized on `exNoTables` and
`exNoQRCodes`. -/
theorem assignToRestaurant_empty_restaurant_errors_witness :
    assignQuestionnaireToRestaurant exNoTables 1 1 100 false =
      (Except.error noTablesMessage, exNoTables) ∧
    assignQuestionnaireToRestaurant exNoQRCodes 1 1 100 false =
      (Except.error noQRCodesMessage, exNoQRCodes) :=
  ⟨(assignToRestaurant_empty_restaurant_errors exNoTables 1 1 100 false).1 (by decide),
   (assignToRestaurant_empty_restaurant_errors exNoQRCodes 1 1 100 false).2.1
     (by decide) (by decide)⟩

/-- C1 (amended): on a scan code with an active Assignment the manual single
assignment always throws the conflict error and leaves the store — in
particular the existing Assignment — unchanged; on a scan code with no
active Assignment and, as the store's uniqueness constraint requires, no
inactive Assignment for the same questionnaire either, it inserts exactly
one new active Assignment with the given questionnaire and weight (the TS
default being 100). -/
theorem assignSingle_conflict_or_insert (s : Store) (qrcodeId questionnaireId : Nat)
    (w : Int) :
    ((checkExistingAssignments s qrcodeId).hasAssignments = true →
      assignQuestionnaireToQRCode s qrcodeId questionnaireId w false =
        (Except.error
          (conflictMessage (checkExistingAssignments s qrcodeId).existingQuestionnaires), s)) ∧
    ((checkExistingAssignments s qrcodeId).hasAssignments = false →
      (∀ a ∈ s.assignments, ¬(a.qrcode_id = qrcodeId ∧ a.questionnaire_id = questionnaireId)) →
      assignQuestionnaireToQRCode s qrcodeId questionnaireId w false =
        (Except.ok ⟨s.nextAid, qrcodeId, questionnaireId, true, w⟩,
         { s with
            assignments := s.assignments ++ [⟨s.nextAid, qrcodeId, questionnaireId, true, w⟩],
            nextAid := s.nextAid + 1 })) := by
  constructor
  · intro h
    simp [assignQuestionnaireToQRCode, h]
  · intro h hclean
    have hany : s.assignments.any (fun a =>
        a.qrcode_id == qrcodeId && a.questionnaire_id == questionnaireId) = false := by
      rw [List.any_eq_false]
      intro a ha
      simpa using hclean a ha
    simp [assignQuestionnaireToQRCode, h, insertAssignmentRow, hany]

/-- C1 (witness): the insert branch realized on `exBase` with the default
weight 100. -/
theorem assignSingle_conflict_or_insert_witness :
    assignQuestionnaireToQRCode exBase 1 1 100 false =
      (Except.ok ⟨exBase.nextAid, 1, 1, true, 100⟩,
       { exBase with
          assignments := exBase.assignments ++ [⟨exBase.nextAid, 1, 1, true, 100⟩],
          nextAid := exBase.nextAid + 1 }) :=
  (assignSingle_conflict_or_insert exBase 1 1 100).2 (by decide) (by decide)

/-- Modelled from the spec: the selection rule of §4.2 stated literally over
cumulative sums — "select the first Assignment whose cumulative weight
exceeds the draw": the first index in fetch order whose cumulative weight
exceeds `r`, if any. -/
def firstCumulativeExceeding (l : List EchoQRCodeQuestionnaire) (r : ℚ) :
    Option EchoQRCodeQuestionnaire :=
  ((List.range l.length).find? (fun i => decide (r < cumWeight l (i + 1)))).bind
    (fun i => l[i]?)

theorem totalWeight_nil : totalWeight [] = 0 := rfl

theorem totalWeight_cons (a : EchoQRCodeQuestionnaire) (l : List EchoQRCodeQuestionnaire) :
    totalWeight (a :: l) = (a.weight : ℚ) + totalWeight l := by
  simp [totalWeight]

theorem cumWeight_cons (a : EchoQRCodeQuestionnaire) (l : List EchoQRCodeQuestionnaire)
    (i : Nat) : cumWeight (a :: l) (i + 1) = (a.weight : ℚ) + cumWeight l i := by
  simp [cumWeight]

/-- The walking implementation of the selector coincides with the literal
"first cumulative weight exceeding the draw" reading, for every draw. -/
theorem weightedRandomSelect_eq_firstCumulativeExceeding
    (l : List EchoQRCodeQuestionnaire) (r : ℚ) :
    weightedRandomSelect l r = firstCumulativeExceeding l r := by
  induction l generalizing r with
  | nil => rfl
  | cons a rest ih =>
    by_cases hr : r < (a.weight : ℚ)
    · have h1 : cumWeight (a :: rest) 1 = (a.weight : ℚ) := by
        simp [cumWeight]
      simp [weightedRandomSelect, firstCumulativeExceeding, List.range_succ_eq_map,
        List.find?_cons, h1, hr]
    · have h1 : cumWeight (a :: rest) 1 = (a.weight : ℚ) := by
        simp [cumWeight]
      have hq : ((fun i => decide (r < cumWeight (a :: rest) (i + 1))) ∘ Nat.succ) =
          (fun i => decide (r - (a.weight : ℚ) < cumWeight rest (i + 1))) := by
        funext i
        simp only [Function.comp]
        congr 1
        rw [eq_iff_iff, cumWeight_cons, sub_lt_iff_lt_add']
      rw [weightedRandomSelect, if_neg hr, ih, firstCumulativeExceeding,
        firstCumulativeExceeding]
      simp only [List.length_cons]
      have hp0 : decide (r < cumWeight (a :: rest) (0 + 1)) = false :=
        decide_eq_false (by simpa [h1] using hr)
      simp only [List.range_succ_eq_map, List.find?_cons, hp0]
      rw [List.find?_map, hq]
      cases hfind : (List.range rest.length).find?
          (fun i => decide (r - (a.weight : ℚ) < cumWeight rest (i + 1))) with
      | none => simp [hfind]
      | some j => simp [hfind]

/-- When the draw lies in `[0, totalWeight)` the walk always selects, and the
selected assignment has positive weight. -/
theorem weightedRandomSelect_pos (l : List EchoQRCodeQuestionnaire) (r : ℚ)
    (h0 : 0 ≤ r) (hlt : r < totalWeight l) :
    ∃ a, weightedRandomSelect l r = some a ∧ 0 < a.weight := by
  induction l generalizing r with
  | nil =>
    rw [totalWeight_nil] at hlt
    exact absurd hlt (not_lt.2 h0)
  | cons a rest ih =>
    by_cases hr : r < (a.weight : ℚ)
    · refine ⟨a, by simp [weightedRandomSelect, hr], ?_⟩
      have : (0 : ℚ) < (a.weight : ℚ) := lt_of_le_of_lt h0 hr
      exact_mod_cast this
    · have hw : (a.weight : ℚ) ≤ r := not_lt.1 hr
      have h0' : 0 ≤ r - (a.weight : ℚ) := by linarith
      have hlt' : r - (a.weight : ℚ) < totalWeight rest := by
        rw [totalWeight_cons] at hlt
        linarith
      obtain ⟨b, hb, hbpos⟩ := ih (r - (a.weight : ℚ)) h0' hlt'
      exact ⟨b, by simp [weightedRandomSelect, hr, hb], hbpos⟩

/-- C5: for every uniform draw `r` in `[0, totalWeight)` the weighted random
selection selects exactly the first Assignment (in fetch order) whose
cumulative weight exceeds `r`, it always selects one, and the selected
Assignment has positive weight — in particular an Assignment with weight 0
is never selected for any draw. -/
theorem weightedRandomSelect_first_exceeding (l : List EchoQRCodeQuestionnaire) (r : ℚ)
    (h0 : 0 ≤ r) (hlt : r < totalWeight l) :
    weightedRandomSelect l r = firstCumulativeExceeding l r ∧
    (weightedRandomSelect l r).isSome = true ∧
    Option.all (fun a => decide (0 < a.weight)) (weightedRandomSelect l r) = true := by
  obtain ⟨a, ha, hapos⟩ := weightedRandomSelect_pos l r h0 hlt
  exact ⟨weightedRandomSelect_eq_firstCumulativeExceeding l r,
    by simp [ha], by simp [ha, hapos]⟩

/-- The fetched assignment list of the §8 zero-weight scenario: a weight-0
assignment followed by a weight-100 assignment of the same scan code. -/
def exDraw : List EchoQRCodeQuestionnaire := [⟨1, 1, 1, true, 0⟩, ⟨2, 1, 2, true, 100⟩]

/-- C5 (witness): the selector applied to `exDraw` at draw 0 — the zero-weight
head is skipped. -/
theorem weightedRandomSelect_first_exceeding_witness :
    weightedRandomSelect exDraw 0 = firstCumulativeExceeding exDraw 0 ∧
    (weightedRandomSelect exDraw 0).isSome = true ∧
    Option.all (fun a => decide (0 < a.weight)) (weightedRandomSelect exDraw 0) = true :=
  weightedRandomSelect_first_exceeding exDraw 0 (by norm_num)
    (by norm_num [totalWeight, exDraw])


/-- The §3 invariant: at most one Assignment record per
(scan code, questionnaire) pair. -/
def PairUnique (s : Store) : Prop :=
  s.assignments.Pairwise (fun a b =>
    ¬(a.qrcode_id = b.qrcode_id ∧ a.questionnaire_id = b.questionnaire_id))

instance (s : Store) : Decidable (PairUnique s) := by
  unfold PairUnique
  infer_instance

theorem pairUnique_of_assignments_eq {s s' : Store}
    (h : s'.assignments = s.assignments) (hp : PairUnique s) : PairUnique s' := by
  unfold PairUnique at hp ⊢
  rw [h]
  exact hp

theorem insertAssignmentRow_preserves_pairUnique {s : Store} {r : AssignmentInsert}
    {row : EchoQRCodeQuestionnaire} {s' : Store}
    (h : insertAssignmentRow s r = Except.ok (row, s')) (hp : PairUnique s) :
    PairUnique s' := by
  unfold insertAssignmentRow at h
  by_cases hc : s.assignments.any (fun a =>
      a.qrcode_id == r.qrcode_id && a.questionnaire_id == r.questionnaire_id) = true
  · rw [if_pos hc] at h
    exact absurd h (by simp)
  · rw [if_neg hc] at h
    simp only [Except.ok.injEq, Prod.mk.injEq] at h
    obtain ⟨hrow, hs⟩ := h
    rw [← hs]
    unfold PairUnique
    rw [List.pairwise_append]
    refine ⟨hp, List.pairwise_singleton _ _, ?_⟩
    intro a ha b hb
    rw [List.mem_singleton] at hb
    subst hb
    have := (List.any_eq_false.1 (Bool.not_eq_true _ ▸ hc)) a ha
    simpa using this

theorem insertAssignmentRows_preserves_pairUnique (rows : List AssignmentInsert) :
    ∀ (s s' : Store), insertAssignmentRows s rows = Except.ok s' →
      PairUnique s → PairUnique s' := by
  induction rows with
  | nil =>
    intro s s' h hp
    simp only [insertAssignmentRows, Except.ok.injEq] at h
    rwa [← h]
  | cons r rest ih =>
    intro s s' h hp
    unfold insertAssignmentRows at h
    cases hrow : insertAssignmentRow s r with
    | error e =>
      rw [hrow] at h
      exact absurd h (by simp)
    | ok p =>
      obtain ⟨row, s1⟩ := p
      rw [hrow] at h
      exact ih s1 s' h (insertAssignmentRow_preserves_pairUnique hrow hp)

theorem insertQRCodeRow_ok_fields {s : Store} {qrId tableId : Nat}
    {row : EchoQRCode} {s' : Store}
    (h : insertQRCodeRow s qrId tableId = Except.ok (row, s')) :
    s'.assignments = s.assignments ∧ s'.tables = s.tables ∧
    s'.qrcodes = s.qrcodes ++ [⟨qrId, tableId⟩] ∧ s'.nextAid = s.nextAid ∧
    row = ⟨qrId, tableId⟩ := by
  unfold insertQRCodeRow at h
  by_cases hc : s.qrcodes.any (fun c => c.id == qrId || c.table_id == tableId) = true
  · rw [if_pos hc] at h
    exact absurd h (by simp)
  · rw [if_neg hc] at h
    simp only [Except.ok.injEq, Prod.mk.injEq] at h
    obtain ⟨hrow, hs⟩ := h
    rw [← hs, ← hrow]
    exact ⟨rfl, rfl, rfl, rfl, rfl⟩

/-- C7: each engine operation — manual single assignment, bulk restaurant
assignment, and qr-code provisioning with propagation — preserves the
invariant of at most one Assignment record per (scan code, questionnaire)
pair, for every store satisfying it (in particular stores holding an
inactive Assignment for the same pair: there the insert is rejected by the
uniqueness constraint and the store is left as it was). -/
theorem engine_ops_preserve_pair_uniqueness (s : Store) (hp : PairUnique s) :
    (∀ qrcodeId questionnaireId w fail,
      PairUnique (assignQuestionnaireToQRCode s qrcodeId questionnaireId w fail).2) ∧
    (∀ rid qid w fail,
      PairUnique (assignQuestionnaireToRestaurant s rid qid w fail).2) ∧
    (∀ tableId newQrId f1 f2,
      PairUnique (generateQRCodeForTable s tableId newQrId f1 f2).2) := by
  refine ⟨?_, ?_, ?_⟩
  · intro qr q w fail
    simp only [assignQuestionnaireToQRCode]
    split
    · exact hp
    · split
      · exact hp
      · split
        · exact hp
        · next row s1 heq => exact insertAssignmentRow_preserves_pairUnique heq hp
  · intro rid qid w fail
    simp only [assignQuestionnaireToRestaurant]
    split
    · exact hp
    · split
      · exact hp
      · split
        · exact hp
        · split
          · exact hp
          · split
            · exact hp
            · next s1 heq => exact insertAssignmentRows_preserves_pairUnique _ _ _ heq hp
  · intro tableId newQrId f1 f2
    simp only [generateQRCodeForTable]
    split
    · exact hp
    · split
      · exact hp
      · split
        · exact hp
        · next row s1 heq =>
          have hp1 : PairUnique s1 :=
            pairUnique_of_assignments_eq (insertQRCodeRow_ok_fields heq).1 hp
          split
          · exact hp1
          · split
            · exact hp1
            · split
              · exact hp1
              · next s2 heq2 => exact insertAssignmentRows_preserves_pairUnique _ _ _ heq2 hp1

/-- C7 (witness): the invariant carried through each operation on concrete
stores. -/
theorem engine_ops_preserve_pair_uniqueness_witness :
    PairUnique (assignQuestionnaireToQRCode exBase 1 1 100 false).2 ∧
    PairUnique (assignQuestionnaireToRestaurant exBase 1 1 100 false).2 ∧
    PairUnique (generateQRCodeForTable exTwoWeights 3 99 false false).2 :=
  ⟨(engine_ops_preserve_pair_uniqueness exBase (by decide)).1 1 1 100 false,
   (engine_ops_preserve_pair_uniqueness exBase (by decide)).2.1 1 1 100 false,
   (engine_ops_preserve_pair_uniqueness exTwoWeights (by decide)).2.2 3 99 false false⟩

/-- C8 (amended): when a mutating operation throws, the store is exactly as it
was — with one exception.  The manual and bulk assignment operations, and a
provisioning run whose qr-code INSERT fails, all reject wholly with no
partial write; but a storage error on the propagated-assignments INSERT of
provisioning is swallowed (warn-only): the call still returns success and the
new scan code is left in the store with none of its propagated Assignments. -/
theorem storage_error_rollback_except_propagation :
    (∀ (s : Store) (qr q : Nat) (w : Int) (fail : Bool) (e : String),
      (assignQuestionnaireToQRCode s qr q w fail).1 = Except.error e →
      (assignQuestionnaireToQRCode s qr q w fail).2 = s) ∧
    (∀ (s : Store) (rid qid : Nat) (w : Int) (fail : Bool) (e : String),
      (assignQuestionnaireToRestaurant s rid qid w fail).1 = Except.error e →
      (assignQuestionnaireToRestaurant s rid qid w fail).2 = s) ∧
    (∀ (s : Store) (tid nid : Nat) (f1 f2 : Bool) (e : String),
      (generateQRCodeForTable s tid nid f1 f2).1 = Except.error e →
      (generateQRCodeForTable s tid nid f1 f2).2 = s) ∧
    (∀ (s : Store) (tid nid : Nat) (td : EchoTable) (row : EchoQRCode) (s1 : Store),
      s.tables.find? (fun t => t.id == tid) = some td →
      insertQRCodeRow s nid tid = Except.ok (row, s1) →
      getQuestionnairesForRestaurant s1 td.restaurant_id ≠ [] →
      generateQRCodeForTable s tid nid false true = (Except.ok row, s1) ∧
        s1.assignments = s.assignments) := by
  refine ⟨?_, ?_, ?_, ?_⟩
  · intro s qr q w fail e
    simp only [assignQuestionnaireToQRCode]
    split
    · intro _; rfl
    · split
      · intro _; rfl
      · split
        · intro _; rfl
        · intro h; exact absurd h (by simp)
  · intro s rid qid w fail e
    simp only [assignQuestionnaireToRestaurant]
    split
    · intro _; rfl
    · split
      · intro _; rfl
      · split
        · intro _; rfl
        · split
          · intro _; rfl
          · split
            · intro _; rfl
            · intro h; exact absurd h (by simp)
  · intro s tid nid f1 f2 e
    simp only [generateQRCodeForTable]
    split
    · intro _; rfl
    · split
      · intro _; rfl
      · split
        · intro _; rfl
        · next row s1 heq =>
          split
          · intro h; exact absurd h (by simp)
          · split
            · intro h; exact absurd h (by simp)
            · split
              · intro h; exact absurd h (by simp)
              · intro h; exact absurd h (by simp)
  · intro s tid nid td row s1 hfind hins hne
    have hempty : (getQuestionnairesForRestaurant s1 td.restaurant_id).isEmpty = false := by
      simpa [List.isEmpty_iff] using hne
    refine ⟨?_, (insertQRCodeRow_ok_fields hins).1⟩
    simp [generateQRCodeForTable, hfind, hins, hempty]

/-- C8 (witness): the rollback cases and the swallowed propagation failure on
concrete stores. -/
theorem storage_error_rollback_except_propagation_witness :
    (assignQuestionnaireToQRCode exBase 1 1 100 true).2 = exBase ∧
    (assignQuestionnaireToRestaurant exBase 1 1 100 true).2 = exBase ∧
    (generateQRCodeForTable exBase 1 99 true false).2 = exBase ∧
    (generateQRCodeForTable exTwoWeights 3 99 false true =
      (Except.ok ⟨99, 3⟩,
        ⟨[⟨1, 1, "1"⟩, ⟨2, 1, "2"⟩, ⟨3, 1, "3"⟩], [⟨1, 1⟩, ⟨2, 2⟩, ⟨99, 3⟩], [⟨1, "Q", true⟩],
          [⟨1, 1, 1, true, 50⟩, ⟨2, 2, 1, true, 70⟩], 3⟩) ∧
      (⟨[⟨1, 1, "1"⟩, ⟨2, 1, "2"⟩, ⟨3, 1, "3"⟩], [⟨1, 1⟩, ⟨2, 2⟩, ⟨99, 3⟩], [⟨1, "Q", true⟩],
          [⟨1, 1, 1, true, 50⟩, ⟨2, 2, 1, true, 70⟩], 3⟩ : Store).assignments =
        exTwoWeights.assignments) :=
  ⟨storage_error_rollback_except_propagation.1 exBase 1 1 100 true
      "Failed to assign questionnaire: storage error" (by decide),
   storage_error_rollback_except_propagation.2.1 exBase 1 1 100 true
      "Failed to assign questionnaire to restaurant: storage error" (by decide),
   storage_error_rollback_except_propagation.2.2.1 exBase 1 99 true false
      "Failed to create QR code: storage error" (by decide),
   storage_error_rollback_except_propagation.2.2.2 exTwoWeights 3 99 ⟨3, 1, "3"⟩ ⟨99, 3⟩ _
      (by decide) (by decide) (by decide)⟩


/-- Structural well-formedness of one question, exactly the per-question
conditions `validateQuestions` checks: non-empty id, non-blank text, and for
multiple choice 2-5 options each with a non-blank label. -/
def QuestionOK (q : Question) : Bool :=
  !(q.id == "") && !(q.text == "" || jsTrim q.text == "") &&
    (match q.qtype, q.options with
     | QuestionType.multiple_choice, none => false
     | QuestionType.multiple_choice, some opts =>
       !(opts.length < 2 || opts.length > 5) &&
         opts.all (fun o => !(o.label == "" || jsTrim o.label == ""))
     | QuestionType.text_input, _ => true)

theorem validateOptionsFrom_isNone (opts : List QuestionOption) :
    ∀ i j : Nat,
      (validateOptionsFrom i j opts).isNone =
        opts.all (fun o => !(o.label == "" || jsTrim o.label == "")) := by
  induction opts with
  | nil => intro i j; rfl
  | cons o rest ih =>
    intro i j
    simp only [validateOptionsFrom, List.all_cons]
    cases hl : (o.label == "" || jsTrim o.label == "") with
    | true => simp [hl]
    | false => simp [hl, ih i (j + 1)]

theorem validateQuestionsFrom_shape (qs : List Question) :
    ∀ i : Nat,
      validateQuestionsFrom i qs = ⟨true, none⟩ ∨
      ((validateQuestionsFrom i qs).valid = false ∧
        ((validateQuestionsFrom i qs).error).isSome) := by
  induction qs with
  | nil => intro i; left; rfl
  | cons q rest ih =>
    intro i
    simp only [validateQuestionsFrom]
    split
    · right; exact ⟨rfl, rfl⟩
    · split
      · right; exact ⟨rfl, rfl⟩
      · split
        · right; exact ⟨rfl, rfl⟩
        · split
          · right; exact ⟨rfl, rfl⟩
          · split
            · right; exact ⟨rfl, rfl⟩
            · exact ih (i + 1)
        · exact ih (i + 1)

theorem validateQuestionsFrom_valid_ok (qs : List Question) :
    ∀ i : Nat, (validateQuestionsFrom i qs).valid = true →
      ∀ q ∈ qs, QuestionOK q = true := by
  induction qs with
  | nil => intro i _ q hq; simp at hq
  | cons q0 rest ih =>
    intro i h q hq
    cases h1 : (q0.id == "") with
    | true => simp [validateQuestionsFrom, h1] at h
    | false =>
    cases h2 : (q0.text == "" || jsTrim q0.text == "") with
    | true => simp [validateQuestionsFrom, h1, h2] at h
    | false =>
    cases hqt : q0.qtype with
    | text_input =>
      have h' : (validateQuestionsFrom (i + 1) rest).valid = true := by
        simpa [validateQuestionsFrom, h1, h2, hqt] using h
      rcases List.mem_cons.1 hq with rfl | hmem
      · simp only [QuestionOK, h1, h2, hqt, Bool.not_false, Bool.true_and, Bool.and_true]
      · exact ih (i + 1) h' q hmem
    | multiple_choice =>
      cases hopt : q0.options with
      | none => simp [validateQuestionsFrom, h1, h2, hqt, hopt] at h
      | some opts =>
      cases h3 : (decide (opts.length < 2) || decide (opts.length > 5)) with
      | true => simp [validateQuestionsFrom, h1, h2, hqt, hopt, h3] at h
      | false =>
      cases h4 : validateOptionsFrom i 0 opts with
      | some e => simp [validateQuestionsFrom, h1, h2, hqt, hopt, h3, h4] at h
      | none =>
        have h' : (validateQuestionsFrom (i + 1) rest).valid = true := by
          simpa [validateQuestionsFrom, h1, h2, hqt, hopt, h3, h4] using h
        rcases List.mem_cons.1 hq with rfl | hmem
        · have hall : (opts.all fun o => !(o.label == "" || jsTrim o.label == "")) = true := by
            have := validateOptionsFrom_isNone opts i 0
            rw [h4] at this
            exact this.symm
          simp only [QuestionOK, h1, h2, hqt, hopt, h3, hall, Bool.not_false, Bool.true_and,
            Bool.and_true, Bool.and_self]
        · exact ih (i + 1) h' q hmem

/-- C9 (amended): malformed question/option structures — an empty question
list, a blank id or text, a multiple-choice question with no options, with
fewer than 2 or more than 5 options, or with a blank option label — are
rejected by `validateQuestions` with a specific message, and the editor's
save path returns that message without mutating the store; but a
non-positive weight passed to an assignment operation is NOT validated: the
operation succeeds and stores the weight as given. -/
theorem validation_rejects_structure_not_weight :
    (∀ (s : Store) (newQid : Nat) (title : String) (act : Bool)
        (questions : List Question),
      (validateQuestions questions).valid = false →
      handleSaveQuestionnaire s newQid title act questions =
        (Except.error ((validateQuestions questions).error.getD "Invalid questions"), s)) ∧
    (∀ questions : List Question,
      (validateQuestions questions).valid = false →
      ((validateQuestions questions).error).isSome) ∧
    (∀ (questions : List Question) (q : Question), q ∈ questions →
      QuestionOK q = false → (validateQuestions questions).valid = false) ∧
    (∀ (s : Store) (qr qid : Nat) (w : Int),
      (checkExistingAssignments s qr).hasAssignments = false →
      (∀ a ∈ s.assignments, ¬(a.qrcode_id = qr ∧ a.questionnaire_id = qid)) →
      (assignQuestionnaireToQRCode s qr qid w false).1 =
          Except.ok ⟨s.nextAid, qr, qid, true, w⟩ ∧
        (⟨s.nextAid, qr, qid, true, w⟩ : EchoQRCodeQuestionnaire) ∈
          (assignQuestionnaireToQRCode s qr qid w false).2.assignments) := by
  refine ⟨?_, ?_, ?_, ?_⟩
  · intro s newQid title act questions h
    simp [handleSaveQuestionnaire, h]
  · intro questions h
    cases hemp : questions.isEmpty with
    | true => simp [validateQuestions, hemp]
    | false =>
      rcases validateQuestionsFrom_shape questions 0 with hsh | hsh
      · rw [validateQuestions, hemp] at h
        simp only [Bool.false_eq_true, if_false] at h
        rw [hsh] at h
        simp at h
      · rw [validateQuestions, hemp]
        simpa using hsh.2
  · intro questions q hq hbad
    have hne : questions.isEmpty = false := by
      cases questions with
      | nil => simp at hq
      | cons a l => rfl
    cases hv : (validateQuestions questions).valid with
    | false => rfl
    | true =>
      rw [validateQuestions, hne] at hv
      simp only [Bool.false_eq_true, if_false] at hv
      have := validateQuestionsFrom_valid_ok questions 0 hv q hq
      rw [hbad] at this
      cases this
  · intro s qr qid w h hclean
    have hany : s.assignments.any (fun a =>
        a.qrcode_id == qr && a.questionnaire_id == qid) = false := by
      rw [List.any_eq_false]
      intro a ha
      simpa using hclean a ha
    constructor
    · simp [assignQuestionnaireToQRCode, h, insertAssignmentRow, hany]
    · simp [assignQuestionnaireToQRCode, h, insertAssignmentRow, hany]

/-- A structurally malformed question: multiple choice with a single option. -/
def exBadQuestion : Question :=
  ⟨"q1", "How was it?", QuestionType.multiple_choice, some [⟨"a", "1"⟩]⟩

/-- C9 (witness): the rejection cases and the unvalidated weight 0 realized on
concrete inputs. -/
theorem validation_rejects_structure_not_weight_witness :
    handleSaveQuestionnaire exBase 5 "T" true [] =
      (Except.error ((validateQuestions []).error.getD "Invalid questions"), exBase) ∧
    ((validateQuestions []).error).isSome ∧
    (validateQuestions [exBadQuestion]).valid = false ∧
    ((assignQuestionnaireToQRCode exBase 1 1 0 false).1 =
        Except.ok ⟨exBase.nextAid, 1, 1, true, 0⟩ ∧
      (⟨exBase.nextAid, 1, 1, true, 0⟩ : EchoQRCodeQuestionnaire) ∈
        (assignQuestionnaireToQRCode exBase 1 1 0 false).2.assignments) :=
  ⟨validation_rejects_structure_not_weight.1 exBase 5 "T" true [] (by decide),
   validation_rejects_structure_not_weight.2.1 [] (by decide),
   validation_rejects_structure_not_weight.2.2.1 [exBadQuestion] exBadQuestion (by decide)
     (by decide),
   validation_rejects_structure_not_weight.2.2.2 exBase 1 1 0 (by decide) (by decide)⟩

/-- The junction rows a multi-row INSERT produces: the store numbers the rows
consecutively from its id sequence. -/
def numberRows (start : Nat) : List AssignmentInsert → List EchoQRCodeQuestionnaire
  | [] => []
  | r :: rest =>
    ⟨start, r.qrcode_id, r.questionnaire_id, r.is_active, r.weight⟩ :: numberRows (start + 1) rest

theorem insertAssignmentRow_ok_shape {s : Store} {r : AssignmentInsert}
    {row : EchoQRCodeQuestionnaire} {s' : Store}
    (h : insertAssignmentRow s r = Except.ok (row, s')) :
    row = ⟨s.nextAid, r.qrcode_id, r.questionnaire_id, r.is_active, r.weight⟩ ∧
    s' = { s with
            assignments := s.assignments ++
              [⟨s.nextAid, r.qrcode_id, r.questionnaire_id, r.is_active, r.weight⟩],
            nextAid := s.nextAid + 1 } := by
  unfold insertAssignmentRow at h
  by_cases hc : s.assignments.any (fun a =>
      a.qrcode_id == r.qrcode_id && a.questionnaire_id == r.questionnaire_id) = true
  · rw [if_pos hc] at h
    exact absurd h (by simp)
  · rw [if_neg hc] at h
    simp only [Except.ok.injEq, Prod.mk.injEq] at h
    exact ⟨h.1.symm, h.2.symm⟩

theorem insertAssignmentRows_ok_shape (rows : List AssignmentInsert) :
    ∀ (s s' : Store), insertAssignmentRows s rows = Except.ok s' →
      s' = { s with
              assignments := s.assignments ++ numberRows s.nextAid rows,
              nextAid := s.nextAid + rows.length } := by
  induction rows with
  | nil =>
    intro s s' h
    simp only [insertAssignmentRows, Except.ok.injEq] at h
    rw [← h]
    cases s
    simp [numberRows]
  | cons r rest ih =>
    intro s s' h
    unfold insertAssignmentRows at h
    cases hrow : insertAssignmentRow s r with
    | error e =>
      rw [hrow] at h
      exact absurd h (by simp)
    | ok p =>
      obtain ⟨row, s1⟩ := p
      rw [hrow] at h
      obtain ⟨hr2, hs1⟩ := insertAssignmentRow_ok_shape hrow
      have h1 := ih s1 s' h
      rw [hs1] at h1
      rw [h1]
      cases s
      simp [numberRows, List.append_assoc]
      omega

theorem insertAssignmentRows_ok_of (rows : List AssignmentInsert) :
    ∀ s : Store,
      (∀ r ∈ rows, ∀ a ∈ s.assignments,
        ¬(a.qrcode_id = r.qrcode_id ∧ a.questionnaire_id = r.questionnaire_id)) →
      rows.Pairwise (fun r1 r2 =>
        ¬(r1.qrcode_id = r2.qrcode_id ∧ r1.questionnaire_id = r2.questionnaire_id)) →
      insertAssignmentRows s rows =
        Except.ok { s with
                     assignments := s.assignments ++ numberRows s.nextAid rows,
                     nextAid := s.nextAid + rows.length } := by
  induction rows with
  | nil =>
    intro s _ _
    simp only [insertAssignmentRows, Except.ok.injEq]
    cases s
    simp [numberRows]
  | cons r rest ih =>
    intro s hclean hpw
    have hany : s.assignments.any (fun a =>
        a.qrcode_id == r.qrcode_id && a.questionnaire_id == r.questionnaire_id) = false := by
      rw [List.any_eq_false]
      intro a ha
      simpa using hclean r (List.mem_cons_self r rest) a ha
    have hrow : insertAssignmentRow s r = Except.ok
        (⟨s.nextAid, r.qrcode_id, r.questionnaire_id, r.is_active, r.weight⟩,
         { s with
            assignments := s.assignments ++
              [⟨s.nextAid, r.qrcode_id, r.questionnaire_id, r.is_active, r.weight⟩],
            nextAid := s.nextAid + 1 }) := by
      unfold insertAssignmentRow
      rw [if_neg (by rw [hany]; exact Bool.false_ne_true)]
    rw [insertAssignmentRows]
    simp only [hrow]
    have hpw' := (List.pairwise_cons.1 hpw)
    rw [ih _ ?hclean hpw'.2]
    · congr 1
      cases s
      simp [numberRows, List.append_assoc]
      omega
    case hclean =>
      intro r2 hr2 a ha
      simp only [List.mem_append, List.mem_singleton] at ha
      rcases ha with ha | rfl
      · exact hclean r2 (List.mem_cons_of_mem r hr2) a ha
      · simpa using hpw'.1 r2 hr2

theorem uniq_pair_mem (l : List EchoQRCodeQuestionnaire) :
    ∀ (seen : List Nat) (q : Nat) (wt : Int),
      (q, wt) ∈ uniqueByQuestionnaire seen l ↔
        (seen.contains q = false ∧
          ∃ a, l.find? (fun x => x.questionnaire_id == q) = some a ∧ a.weight = wt) := by
  induction l with
  | nil =>
    intro seen q wt
    simp [uniqueByQuestionnaire]
  | cons a rest ih =>
    intro seen q wt
    by_cases hq : q = a.questionnaire_id
    · have hpred : (a.questionnaire_id == q) = true := by
        simp [hq]
      have hfind : (a :: rest).find? (fun x => x.questionnaire_id == q) = some a := by
        rw [List.find?_cons]
        simp only [hpred]
      cases hca : seen.contains a.questionnaire_id with
      | true =>
        have hc : seen.contains q = true := by
          rw [hq]; exact hca
        simp only [uniqueByQuestionnaire, hca, if_true]
        rw [ih seen q wt]
        constructor
        · rintro ⟨hfalse, _⟩
          rw [hc] at hfalse
          simp at hfalse
        · rintro ⟨hfalse, _⟩
          rw [hc] at hfalse
          simp at hfalse
      | false =>
        have hc : seen.contains q = false := by
          rw [hq]; exact hca
        simp only [uniqueByQuestionnaire, hca, Bool.false_eq_true, if_false, List.mem_cons]
        rw [ih (a.questionnaire_id :: seen) q wt, hfind]
        constructor
        · rintro (hhead | ⟨hcont, _⟩)
          · rw [Prod.mk.injEq] at hhead
            exact ⟨hc, a, rfl, hhead.2.symm⟩
          · rw [List.contains_cons, hq] at hcont
            simp at hcont
        · rintro ⟨_, a', hsome, hw⟩
          left
          cases hsome
          rw [Prod.mk.injEq]
          exact ⟨hq, hw.symm⟩
    · have hpred : (a.questionnaire_id == q) = false := by
        rw [beq_eq_false_iff_ne]
        exact fun h => hq h.symm
      have hfind : (a :: rest).find? (fun x => x.questionnaire_id == q) =
          rest.find? (fun x => x.questionnaire_id == q) := by
        rw [List.find?_cons]
        simp only [hpred]
      cases hc : seen.contains a.questionnaire_id with
      | true =>
        simp only [uniqueByQuestionnaire, hc, if_true]
        rw [ih seen q wt, hfind]
      | false =>
        simp only [uniqueByQuestionnaire, hc, Bool.false_eq_true, if_false, List.mem_cons]
        rw [ih (a.questionnaire_id :: seen) q wt, hfind]
        have hcont : (a.questionnaire_id :: seen).contains q = seen.contains q := by
          rw [List.contains_cons]
          have hne : (q == a.questionnaire_id) = false := by
            rw [beq_eq_false_iff_ne]
            exact hq
          rw [hne, Bool.false_or]
        rw [hcont]
        constructor
        · rintro (hhead | h)
          · rw [Prod.mk.injEq] at hhead
            exact absurd hhead.1 hq
          · exact h
        · intro h
          right
          exact h

theorem uniq_keys_nodup (l : List EchoQRCodeQuestionnaire) :
    ∀ seen : List Nat, ((uniqueByQuestionnaire seen l).map Prod.fst).Nodup := by
  induction l with
  | nil =>
    intro seen
    simp [uniqueByQuestionnaire]
  | cons a rest ih =>
    intro seen
    cases hc : seen.contains a.questionnaire_id with
    | true =>
      simp only [uniqueByQuestionnaire, hc, if_true]
      exact ih seen
    | false =>
      simp only [uniqueByQuestionnaire, hc, Bool.false_eq_true, if_false, List.map_cons]
      rw [List.nodup_cons]
      refine ⟨?_, ih (a.questionnaire_id :: seen)⟩
      intro hmem
      obtain ⟨⟨q, wt⟩, hp, hfst⟩ := List.mem_map.1 hmem
      have hqa : q = a.questionnaire_id := hfst
      have := ((uniq_pair_mem rest (a.questionnaire_id :: seen) q wt).1 hp).1
      rw [hqa, List.contains_cons] at this
      simp at this

theorem assignmentRestaurant_insert_qrcode (s : Store) (newQrId tableId : Nat)
    (a : EchoQRCodeQuestionnaire) (ha : a.qrcode_id ≠ newQrId) :
    assignmentRestaurant
        { s with qrcodes := s.qrcodes ++ [⟨newQrId, tableId⟩] } a =
      assignmentRestaurant s a := by
  unfold assignmentRestaurant
  have hfa : ({ s with qrcodes := s.qrcodes ++ [⟨newQrId, tableId⟩] } : Store).qrcodes.find?
      (fun c => c.id == a.qrcode_id) = s.qrcodes.find? (fun c => c.id == a.qrcode_id) := by
    show (s.qrcodes ++ [(⟨newQrId, tableId⟩ : EchoQRCode)]).find?
      (fun c => c.id == a.qrcode_id) = _
    rw [List.find?_append]
    cases hf : s.qrcodes.find? (fun c => c.id == a.qrcode_id) with
    | some c => rfl
    | none =>
      simp only [Option.none_or]
      rw [List.find?_cons]
      have : ((⟨newQrId, tableId⟩ : EchoQRCode).id == a.qrcode_id) = false := by
        rw [beq_eq_false_iff_ne]
        exact fun h => ha (h.symm)
      simp only [this]
      rfl
  rw [hfa]

theorem getQuestionnairesForRestaurant_insert_qrcode (s : Store)
    (newQrId tableId rid : Nat)
    (hfresh : ∀ a ∈ s.assignments, a.qrcode_id ≠ newQrId) :
    getQuestionnairesForRestaurant
        { s with qrcodes := s.qrcodes ++ [⟨newQrId, tableId⟩] } rid =
      getQuestionnairesForRestaurant s rid := by
  unfold getQuestionnairesForRestaurant
  have hfilter : ({ s with qrcodes := s.qrcodes ++ [⟨newQrId, tableId⟩] } : Store).assignments.filter
      (fun a => a.is_active &&
        assignmentRestaurant { s with qrcodes := s.qrcodes ++ [⟨newQrId, tableId⟩] } a == some rid) =
      s.assignments.filter (fun a => a.is_active && assignmentRestaurant s a == some rid) := by
    show s.assignments.filter _ = s.assignments.filter _
    apply List.filter_congr
    intro a ha
    rw [assignmentRestaurant_insert_qrcode s newQrId tableId a (hfresh a ha)]
  rw [hfilter]

theorem numberRows_filter_qrcode (newQrId : Nat) (rows : List AssignmentInsert)
    (hall : ∀ r ∈ rows, r.qrcode_id = newQrId ∧ r.is_active = true) :
    ∀ start : Nat,
      (numberRows start rows).filter (fun a => a.qrcode_id == newQrId && a.is_active) =
        numberRows start rows := by
  induction rows with
  | nil => intro start; rfl
  | cons r rest ih =>
    intro start
    obtain ⟨h1, h2⟩ := hall r (List.mem_cons_self r rest)
    simp only [numberRows, List.filter_cons]
    have : ((⟨start, r.qrcode_id, r.questionnaire_id, r.is_active, r.weight⟩ :
        EchoQRCodeQuestionnaire).qrcode_id == newQrId &&
        (⟨start, r.qrcode_id, r.questionnaire_id, r.is_active, r.weight⟩ :
        EchoQRCodeQuestionnaire).is_active) = true := by
      simp [h1, h2]
    simp only [this, if_true]
    rw [ih (fun r hr => hall r (List.mem_cons_of_mem _ hr)) (start + 1)]

theorem numberRows_map_qw (rows : List AssignmentInsert) :
    ∀ start : Nat,
      (numberRows start rows).map (fun a => (a.questionnaire_id, a.weight)) =
        rows.map (fun r => (r.questionnaire_id, r.weight)) := by
  induction rows with
  | nil => intro start; rfl
  | cons r rest ih =>
    intro start
    simp only [numberRows, List.map_cons]
    rw [ih (start + 1)]

/-- C2 (amended): provisioning a qr code for a table copies onto it one
Assignment per DISTINCT questionnaire id among the restaurant's active
Assignments — each with the weight of that questionnaire's first active
junction row in fetch order — not one per distinct (questionnaire, weight)
pair; when the restaurant has no active Assignments the new code receives
none.  Precisely: the (questionnaire, weight) pairs on the new code are
exactly `getQuestionnairesForRestaurant`, whose questionnaire ids are
duplicate-free, are exactly the active questionnaire ids of the restaurant,
and whose weights come from the first matching active junction row. -/
theorem provisionPropagation_unique_by_questionnaire
    (s : Store) (tableId newQrId : Nat) (td : EchoTable)
    (hfind : s.tables.find? (fun t => t.id == tableId) = some td)
    (hnoqr : s.qrcodes.any (fun c => c.id == newQrId || c.table_id == tableId) = false)
    (hfresh : ∀ a ∈ s.assignments, a.qrcode_id ≠ newQrId) :
    (generateQRCodeForTable s tableId newQrId false false).1 = Except.ok ⟨newQrId, tableId⟩ ∧
    ((activeAssignmentsFor (generateQRCodeForTable s tableId newQrId false false).2 newQrId).map
        (fun a => (a.questionnaire_id, a.weight))) =
      getQuestionnairesForRestaurant s td.restaurant_id ∧
    ((getQuestionnairesForRestaurant s td.restaurant_id).map Prod.fst).Nodup ∧
    (∀ q : Nat,
      q ∈ (getQuestionnairesForRestaurant s td.restaurant_id).map Prod.fst ↔
        ∃ a ∈ s.assignments, a.is_active = true ∧
          assignmentRestaurant s a = some td.restaurant_id ∧ a.questionnaire_id = q) ∧
    (∀ (q : Nat) (wt : Int),
      (q, wt) ∈ getQuestionnairesForRestaurant s td.restaurant_id →
        ∃ a, (s.assignments.filter (fun x =>
            x.is_active && assignmentRestaurant s x == some td.restaurant_id)).find?
            (fun x => x.questionnaire_id == q) = some a ∧ a.weight = wt) := by
  have h1 : insertQRCodeRow s newQrId tableId = Except.ok
      (⟨newQrId, tableId⟩, { s with qrcodes := s.qrcodes ++ [⟨newQrId, tableId⟩] }) := by
    unfold insertQRCodeRow
    rw [if_neg (by rw [hnoqr]; exact Bool.false_ne_true)]
  have hpairs : getQuestionnairesForRestaurant
      { s with qrcodes := s.qrcodes ++ [⟨newQrId, tableId⟩] } td.restaurant_id =
      getQuestionnairesForRestaurant s td.restaurant_id :=
    getQuestionnairesForRestaurant_insert_qrcode s newQrId tableId td.restaurant_id hfresh
  have hfilter_old : s.assignments.filter
      (fun a => a.qrcode_id == newQrId && a.is_active) = [] := by
    rw [List.filter_eq_nil_iff]
    intro a ha
    simp [hfresh a ha]
  have hmain : (generateQRCodeForTable s tableId newQrId false false).1 =
        Except.ok ⟨newQrId, tableId⟩ ∧
      ((activeAssignmentsFor (generateQRCodeForTable s tableId newQrId false false).2
          newQrId).map (fun a => (a.questionnaire_id, a.weight))) =
        getQuestionnairesForRestaurant s td.restaurant_id := by
    cases hemp : (getQuestionnairesForRestaurant s td.restaurant_id).isEmpty with
    | true =>
      have hnil : getQuestionnairesForRestaurant s td.restaurant_id = [] :=
        List.isEmpty_iff.1 hemp
      have hemp1 : (getQuestionnairesForRestaurant
          { s with qrcodes := s.qrcodes ++ [⟨newQrId, tableId⟩] } td.restaurant_id).isEmpty =
          true := by
        rw [hpairs]; exact hemp
      constructor
      · simp [generateQRCodeForTable, hfind, h1, hemp1]
      · have hres : (generateQRCodeForTable s tableId newQrId false false).2 =
            { s with qrcodes := s.qrcodes ++ [⟨newQrId, tableId⟩] } := by
          simp [generateQRCodeForTable, hfind, h1, hemp1]
        rw [hres, hnil]
        show (s.assignments.filter (fun a => a.qrcode_id == newQrId && a.is_active)).map _ = []
        rw [hfilter_old]
        rfl
    | false =>
      have hemp1 : (getQuestionnairesForRestaurant
          { s with qrcodes := s.qrcodes ++ [⟨newQrId, tableId⟩] } td.restaurant_id).isEmpty =
          false := by
        rw [hpairs]; exact hemp
      have hrowsok := insertAssignmentRows_ok_of
        ((getQuestionnairesForRestaurant
            { s with qrcodes := s.qrcodes ++ [⟨newQrId, tableId⟩] } td.restaurant_id).map
          (fun p => AssignmentInsert.mk newQrId p.1 true p.2))
        { s with qrcodes := s.qrcodes ++ [⟨newQrId, tableId⟩] }
        (by
          intro r hr a ha
          obtain ⟨p, hp, hpr⟩ := List.mem_map.1 hr
          have hrq : r.qrcode_id = newQrId := by rw [← hpr]
          rw [hrq]
          intro hcon
          exact hfresh a ha hcon.1)
        (by
          rw [hpairs]
          have hnd := uniq_keys_nodup
            (s.assignments.filter
              (fun a => a.is_active && assignmentRestaurant s a == some td.restaurant_id)) []
          unfold getQuestionnairesForRestaurant
          rw [List.pairwise_map]
          have hnd' := (List.pairwise_map.1 hnd)
          refine List.Pairwise.imp ?_ hnd'
          intro p1 p2 hne hcon
          exact hne hcon.2)
      constructor
      · simp [generateQRCodeForTable, hfind, h1, hemp1, hrowsok]
      · have hres : (generateQRCodeForTable s tableId newQrId false false).2 =
            { tables := s.tables,
              qrcodes := s.qrcodes ++ [(⟨newQrId, tableId⟩ : EchoQRCode)],
              questionnaires := s.questionnaires,
              assignments := s.assignments ++ numberRows s.nextAid
                ((getQuestionnairesForRestaurant
                    { s with qrcodes := s.qrcodes ++ [(⟨newQrId, tableId⟩ : EchoQRCode)] }
                    td.restaurant_id).map
                  (fun p : Nat × Int => AssignmentInsert.mk newQrId p.1 true p.2)),
              nextAid := s.nextAid +
                ((getQuestionnairesForRestaurant
                    { s with qrcodes := s.qrcodes ++ [(⟨newQrId, tableId⟩ : EchoQRCode)] }
                    td.restaurant_id).map
                  (fun p : Nat × Int => AssignmentInsert.mk newQrId p.1 true p.2)).length } := by
          simp [generateQRCodeForTable, hfind, h1, hemp1, hrowsok]
        rw [hres]
        show ((s.assignments ++ numberRows s.nextAid _).filter
          (fun a => a.qrcode_id == newQrId && a.is_active)).map _ = _
        rw [List.filter_append, hfilter_old, List.nil_append]
        rw [numberRows_filter_qrcode newQrId _
          (by
            intro r hr
            obtain ⟨p, hp, hpr⟩ := List.mem_map.1 hr
            rw [← hpr]
            exact ⟨rfl, rfl⟩) s.nextAid]
        rw [numberRows_map_qw]
        rw [hpairs]
        simp [Function.comp_def]
  refine ⟨hmain.1, hmain.2, ?_, ?_, ?_⟩
  · exact uniq_keys_nodup _ []
  · intro q
    constructor
    · intro hq
      obtain ⟨⟨q', wt⟩, hp, hfst⟩ := List.mem_map.1 hq
      have hq' : q' = q := hfst
      subst hq'
      obtain ⟨_, a, hfd, hw⟩ := (uniq_pair_mem _ [] q' wt).1 hp
      have hmem := List.mem_of_find?_eq_some hfd
      have hpred := List.find?_some hfd
      rw [List.mem_filter] at hmem
      have hqid : a.questionnaire_id = q' := by simpa using hpred
      have hact := hmem.2
      rw [Bool.and_eq_true] at hact
      refine ⟨a, hmem.1, hact.1, ?_, hqid⟩
      simpa using hact.2
    · rintro ⟨a, ha, hact, hrest, hqid⟩
      have hmemf : a ∈ s.assignments.filter
          (fun x => x.is_active && assignmentRestaurant s x == some td.restaurant_id) := by
        rw [List.mem_filter]
        exact ⟨ha, by simp [hact, hrest]⟩
      have hsome : ((s.assignments.filter
          (fun x => x.is_active && assignmentRestaurant s x == some td.restaurant_id)).find?
          (fun x => x.questionnaire_id == q)).isSome := by
        rw [List.find?_isSome]
        exact ⟨a, hmemf, by simp [hqid]⟩
      obtain ⟨b, hb⟩ := Option.isSome_iff_exists.1 hsome
      have hmemp : (q, b.weight) ∈ getQuestionnairesForRestaurant s td.restaurant_id := by
        rw [getQuestionnairesForRestaurant]
        exact (uniq_pair_mem _ [] q b.weight).2 ⟨rfl, b, hb, rfl⟩
      exact List.mem_map.2 ⟨(q, b.weight), hmemp, rfl⟩
  · intro q wt hmem
    exact ((uniq_pair_mem _ [] q wt).1 hmem).2

/-- C2 (witness): provisioning table 3 of `exTwoWeights` succeeds and the new
code's (questionnaire, weight) pairs are exactly the deduplicated-by-id mix of
restaurant 1. -/
theorem provisionPropagation_unique_by_questionnaire_witness :
    (generateQRCodeForTable exTwoWeights 3 99 false false).1 = Except.ok ⟨99, 3⟩ ∧
    ((activeAssignmentsFor (generateQRCodeForTable exTwoWeights 3 99 false false).2 99).map
        (fun a => (a.questionnaire_id, a.weight))) =
      getQuestionnairesForRestaurant exTwoWeights 1 :=
  ⟨(provisionPropagation_unique_by_questionnaire exTwoWeights 3 99 ⟨3, 1, "3"⟩
      (by decide) (by decide) (by decide)).1,
   (provisionPropagation_unique_by_questionnaire exTwoWeights 3 99 ⟨3, 1, "3"⟩
      (by decide) (by decide) (by decide)).2.1⟩

/-- Whether a table's qr code currently carries an active assignment (the
condition the bulk partition loop tests per table). -/
def hasActiveAssignmentForTable (s : Store) (t : EchoTable) : Bool :=
  match qrcodeForTable s t.id with
  | none => false
  | some c => (checkExistingAssignments s c.id).hasAssignments

/-- The titles reported for a skipped table. -/
def existingTitlesForTable (s : Store) (t : EchoTable) : List String :=
  match qrcodeForTable s t.id with
  | none => []
  | some c => (checkExistingAssignments s c.id).existingQuestionnaires

/-- `getQRCodeId(table.echo_qrcode)!` of the insert map (line 1187): the
table's qr-code id, with the non-null assertion modelled by a default of 0. -/
def getQRCodeIdOfTable (s : Store) (t : EchoTable) : Nat :=
  ((qrcodeForTable s t.id).map (fun c => c.id)).getD 0

/-- The qr-coded tables of a restaurant, as the bulk operation computes them
(`tables` then `tablesWithQRCodes`). -/
def eligibleTables (s : Store) (rid : Nat) : List EchoTable :=
  (s.tables.filter (fun t => t.restaurant_id == rid)).filter
    (fun t => (qrcodeForTable s t.id).isSome)

theorem partitionTablesByAssignment_eq (s : Store) :
    ∀ ts : List EchoTable, (∀ t ∈ ts, (qrcodeForTable s t.id).isSome) →
      partitionTablesByAssignment s ts =
        (ts.filter (fun t => !hasActiveAssignmentForTable s t),
         (ts.filter (fun t => hasActiveAssignmentForTable s t)).map (fun t =>
           ⟨t.table_number, existingTitlesForTable s t⟩)) := by
  intro ts
  induction ts with
  | nil => intro _; rfl
  | cons t rest ih =>
    intro h
    have hsome := h t (List.mem_cons_self t rest)
    obtain ⟨c, hc⟩ := Option.isSome_iff_exists.1 hsome
    have ih' := ih (fun x hx => h x (List.mem_cons_of_mem t hx))
    have hhat : hasActiveAssignmentForTable s t =
        (checkExistingAssignments s c.id).hasAssignments := by
      unfold hasActiveAssignmentForTable
      rw [hc]
    have htitles : existingTitlesForTable s t =
        (checkExistingAssignments s c.id).existingQuestionnaires := by
      unfold existingTitlesForTable
      rw [hc]
    cases hact : (checkExistingAssignments s c.id).hasAssignments with
    | true =>
      have hat : hasActiveAssignmentForTable s t = true := by rw [hhat]; exact hact
      simp only [partitionTablesByAssignment, hc, ih', hact, if_true, List.filter_cons, hat,
        Bool.not_true, Bool.false_eq_true, if_false, List.map_cons, htitles]
    | false =>
      have hat : hasActiveAssignmentForTable s t = false := by rw [hhat]; exact hact
      simp only [partitionTablesByAssignment, hc, ih', hact, Bool.false_eq_true, if_false,
        List.filter_cons, hat, Bool.not_false, if_true, List.map_cons]

theorem getQRCodeIdOfTable_inj_on (s : Store)
    (hQ : (s.qrcodes.map EchoQRCode.id).Nodup)
    {t1 t2 : EchoTable} (h1 : (qrcodeForTable s t1.id).isSome)
    (h2 : (qrcodeForTable s t2.id).isSome)
    (heq : getQRCodeIdOfTable s t1 = getQRCodeIdOfTable s t2) : t1.id = t2.id := by
  obtain ⟨c1, hc1⟩ := Option.isSome_iff_exists.1 h1
  obtain ⟨c2, hc2⟩ := Option.isSome_iff_exists.1 h2
  have hm1 : c1 ∈ s.qrcodes := List.mem_of_find?_eq_some hc1
  have hm2 : c2 ∈ s.qrcodes := List.mem_of_find?_eq_some hc2
  have hp1 : c1.table_id = t1.id := by simpa using List.find?_some hc1
  have hp2 : c2.table_id = t2.id := by simpa using List.find?_some hc2
  have hid : c1.id = c2.id := by
    unfold getQRCodeIdOfTable at heq
    rw [hc1, hc2] at heq
    exact heq
  have : c1 = c2 := List.inj_on_of_nodup_map hQ hm1 hm2 hid
  rw [← hp1, ← hp2, this]

/-- C3 (amended): the bulk operation partitions the restaurant's qr-coded
tables by "has an active Assignment" (skipped, left unchanged) versus "has
none"; it fails with `AllAssignedError` exactly when every eligible table is
already assigned; and otherwise — provided, as the store's uniqueness
constraint requires, no to-be-assigned table holds an (inactive) Assignment
for the same questionnaire — it inserts one new active Assignment per
unassigned table and returns
{assignedCount, skippedCount, skippedTables (the spec's skippedDetail)}.
Primary-key duplicate-freeness of the table and qr-code rows is assumed. -/
theorem assignToRestaurant_partition_spec (s : Store) (rid qid : Nat) (w : Int)
    (hT : (s.tables.map EchoTable.id).Nodup)
    (hQ : (s.qrcodes.map EchoQRCode.id).Nodup) :
    partitionTablesByAssignment s (eligibleTables s rid) =
      ((eligibleTables s rid).filter (fun t => !hasActiveAssignmentForTable s t),
       ((eligibleTables s rid).filter (fun t => hasActiveAssignmentForTable s t)).map
         (fun t => ⟨t.table_number, existingTitlesForTable s t⟩)) ∧
    (eligibleTables s rid ≠ [] →
      (eligibleTables s rid).filter (fun t => !hasActiveAssignmentForTable s t) = [] →
      assignQuestionnaireToRestaurant s rid qid w false =
        (Except.error (allAssignedMessage (eligibleTables s rid).length), s)) ∧
    ((eligibleTables s rid).filter (fun t => !hasActiveAssignmentForTable s t) ≠ [] →
      (∀ t ∈ (eligibleTables s rid).filter (fun t => !hasActiveAssignmentForTable s t),
        ∀ a ∈ s.assignments,
          ¬(a.qrcode_id = getQRCodeIdOfTable s t ∧ a.questionnaire_id = qid)) →
      assignQuestionnaireToRestaurant s rid qid w false =
        (Except.ok
          ⟨((eligibleTables s rid).filter (fun t => !hasActiveAssignmentForTable s t)).length,
           (((eligibleTables s rid).filter (fun t => hasActiveAssignmentForTable s t)).map
             (fun t => (⟨t.table_number, existingTitlesForTable s t⟩ : SkippedTable))).length,
           ((eligibleTables s rid).filter (fun t => hasActiveAssignmentForTable s t)).map
             (fun t => ⟨t.table_number, existingTitlesForTable s t⟩)⟩,
         { s with
            assignments := s.assignments ++ numberRows s.nextAid
              (((eligibleTables s rid).filter (fun t => !hasActiveAssignmentForTable s t)).map
                (fun t => AssignmentInsert.mk (getQRCodeIdOfTable s t) qid true w)),
            nextAid := s.nextAid +
              (((eligibleTables s rid).filter (fun t => !hasActiveAssignmentForTable s t)).map
                (fun t => AssignmentInsert.mk (getQRCodeIdOfTable s t) qid true w)).length })) := by
  have hsome : ∀ t ∈ eligibleTables s rid, (qrcodeForTable s t.id).isSome := by
    intro t ht
    exact (List.mem_filter.1 ht).2
  have hpart := partitionTablesByAssignment_eq s (eligibleTables s rid) hsome
  have hpart' : partitionTablesByAssignment s
      ((s.tables.filter (fun t => t.restaurant_id == rid)).filter
        (fun t => (qrcodeForTable s t.id).isSome)) =
      ((eligibleTables s rid).filter (fun t => !hasActiveAssignmentForTable s t),
       ((eligibleTables s rid).filter (fun t => hasActiveAssignmentForTable s t)).map
         (fun t => ⟨t.table_number, existingTitlesForTable s t⟩)) := hpart
  refine ⟨hpart, ?_, ?_⟩
  · intro hne htoassign
    have htabE : (s.tables.filter (fun t => t.restaurant_id == rid)).isEmpty = false := by
      cases htl : s.tables.filter (fun t => t.restaurant_id == rid) with
      | nil => exact absurd (by simp [eligibleTables, htl]) hne
      | cons a l => rfl
    have heligE : ((s.tables.filter (fun t => t.restaurant_id == rid)).filter
        (fun t => (qrcodeForTable s t.id).isSome)).isEmpty = false := by
      cases he : eligibleTables s rid with
      | nil => exact absurd he hne
      | cons a l =>
        show (eligibleTables s rid).isEmpty = false
        rw [he]
        rfl
    simp only [assignQuestionnaireToRestaurant, htabE, Bool.false_eq_true, if_false, heligE,
      hpart', htoassign, List.isEmpty_nil, if_true]
    rfl
  · intro hne hclean
    have heligne : eligibleTables s rid ≠ [] := by
      intro h
      apply hne
      rw [h]
      rfl
    have htabE : (s.tables.filter (fun t => t.restaurant_id == rid)).isEmpty = false := by
      cases htl : s.tables.filter (fun t => t.restaurant_id == rid) with
      | nil => exact absurd (by simp [eligibleTables, htl]) heligne
      | cons a l => rfl
    have heligE : ((s.tables.filter (fun t => t.restaurant_id == rid)).filter
        (fun t => (qrcodeForTable s t.id).isSome)).isEmpty = false := by
      cases he : eligibleTables s rid with
      | nil => exact absurd he heligne
      | cons a l =>
        show (eligibleTables s rid).isEmpty = false
        rw [he]
        rfl
    have htoassignE : ((eligibleTables s rid).filter
        (fun t => !hasActiveAssignmentForTable s t)).isEmpty = false := by
      cases he : (eligibleTables s rid).filter (fun t => !hasActiveAssignmentForTable s t) with
      | nil => exact absurd he hne
      | cons a l => rfl
    have hsubmap : List.Sublist
        (((eligibleTables s rid).filter
          (fun t => !hasActiveAssignmentForTable s t)).map EchoTable.id)
        (s.tables.map EchoTable.id) := by
      apply List.Sublist.map
      exact ((List.filter_sublist _).trans (List.filter_sublist _)).trans (List.filter_sublist _)
    have hmapidnd : (((eligibleTables s rid).filter
        (fun t => !hasActiveAssignmentForTable s t)).map EchoTable.id).Nodup :=
      List.Nodup.sublist hsubmap hT
    have hndto : ((eligibleTables s rid).filter
        (fun t => !hasActiveAssignmentForTable s t)).Nodup :=
      List.Nodup.of_map _ hmapidnd
    have hqrnd : (((eligibleTables s rid).filter
        (fun t => !hasActiveAssignmentForTable s t)).map (getQRCodeIdOfTable s)).Nodup := by
      apply List.Nodup.map_on ?_ hndto
      intro t1 ht1 t2 ht2 heq
      have hs1 : (qrcodeForTable s t1.id).isSome := hsome t1 (List.mem_filter.1 ht1).1
      have hs2 : (qrcodeForTable s t2.id).isSome := hsome t2 (List.mem_filter.1 ht2).1
      have hid := getQRCodeIdOfTable_inj_on s hQ hs1 hs2 heq
      exact List.inj_on_of_nodup_map hmapidnd ht1 ht2 hid
    have hpw : (((eligibleTables s rid).filter
        (fun t => !hasActiveAssignmentForTable s t)).map
          (fun t => AssignmentInsert.mk
            (((qrcodeForTable s t.id).map (fun c => c.id)).getD 0) qid true w)).Pairwise
        (fun r1 r2 =>
          ¬(r1.qrcode_id = r2.qrcode_id ∧ r1.questionnaire_id = r2.questionnaire_id)) := by
      rw [List.pairwise_map]
      have := (List.pairwise_map.1 hqrnd)
      refine List.Pairwise.imp ?_ this
      intro t1 t2 hne' hcon
      exact hne' hcon.1
    have hrowsok := insertAssignmentRows_ok_of
      (((eligibleTables s rid).filter (fun t => !hasActiveAssignmentForTable s t)).map
        (fun t => AssignmentInsert.mk
          (((qrcodeForTable s t.id).map (fun c => c.id)).getD 0) qid true w)) s
      (by
        intro r hr a ha
        obtain ⟨t, ht, htr⟩ := List.mem_map.1 hr
        rw [← htr]
        exact hclean t ht a ha)
      hpw
    simp only [assignQuestionnaireToRestaurant, htabE, Bool.false_eq_true, if_false, heligE,
      hpart', htoassignE, hrowsok]
    rfl

/-- `exBase` after its table has been assigned questionnaire 1 (all eligible
tables assigned). -/
def exAssigned : Store :=
  ⟨[⟨1, 1, "A1"⟩], [⟨1, 1⟩], [⟨1, "Q1", true⟩], [⟨1, 1, 1, true, 100⟩], 2⟩

/-- C3 (witness): the all-assigned error branch on `exAssigned` and the
assigning branch on `exBase`. -/
theorem assignToRestaurant_partition_spec_witness :
    assignQuestionnaireToRestaurant exAssigned 1 2 100 false =
      (Except.error (allAssignedMessage 1), exAssigned) ∧
    assignQuestionnaireToRestaurant exBase 1 1 100 false =
      (Except.ok ⟨1, 0, []⟩,
       ⟨[⟨1, 1, "A1"⟩], [⟨1, 1⟩], [⟨1, "Q1", true⟩], [⟨1, 1, 1, true, 100⟩], 2⟩) := by
  constructor
  · have h := (assignToRestaurant_partition_spec exAssigned 1 2 100
      (by decide) (by decide)).2.1 (by decide) (by decide)
    exact h.trans (by decide)
  · have h := (assignToRestaurant_partition_spec exBase 1 1 100
      (by decide) (by decide)).2.2 (by decide) (by decide)
    exact h.trans (by decide)

theorem numberRows_mem (rows : List AssignmentInsert) :
    ∀ (start : Nat) (r : AssignmentInsert), r ∈ rows →
      ∃ n, (⟨n, r.qrcode_id, r.questionnaire_id, r.is_active, r.weight⟩ :
        EchoQRCodeQuestionnaire) ∈ numberRows start rows := by
  induction rows with
  | nil =>
    intro start r hr
    simp at hr
  | cons x rest ih =>
    intro start r hr
    rcases List.mem_cons.1 hr with rfl | hmem
    · exact ⟨start, List.mem_cons_self _ _⟩
    · obtain ⟨n, hn⟩ := ih (start + 1) r hmem
      exact ⟨n, List.mem_cons_of_mem _ hn⟩

theorem checkExisting_true_of_mem {s : Store} {cid : Nat} {a : EchoQRCodeQuestionnaire}
    (ha : a ∈ s.assignments) (h1 : a.qrcode_id = cid) (h2 : a.is_active = true) :
    (checkExistingAssignments s cid).hasAssignments = true := by
  have hmem : a ∈ s.assignments.filter (fun x => x.qrcode_id == cid && x.is_active) := by
    rw [List.mem_filter]
    exact ⟨ha, by simp [h1, h2]⟩
  have hne : s.assignments.filter (fun x => x.qrcode_id == cid && x.is_active) ≠ [] :=
    List.ne_nil_of_mem hmem
  have hemp : (s.assignments.filter (fun x => x.qrcode_id == cid && x.is_active)).isEmpty =
      false := by
    cases h : (s.assignments.filter (fun x => x.qrcode_id == cid && x.is_active)).isEmpty with
    | false => rfl
    | true => exact absurd (List.isEmpty_iff.1 h) hne
  unfold checkExistingAssignments activeAssignmentsFor
  simp [hemp]

theorem mem_of_checkExisting_true {s : Store} {cid : Nat}
    (h : (checkExistingAssignments s cid).hasAssignments = true) :
    ∃ a ∈ s.assignments, a.qrcode_id = cid ∧ a.is_active = true := by
  unfold checkExistingAssignments activeAssignmentsFor at h
  simp only [Bool.not_eq_true'] at h
  have hne : s.assignments.filter (fun x => x.qrcode_id == cid && x.is_active) ≠ [] := by
    intro hnil
    rw [hnil] at h
    simp at h
  obtain ⟨a, ha⟩ := List.exists_mem_of_ne_nil _ hne
  rw [List.mem_filter] at ha
  have := ha.2
  rw [Bool.and_eq_true] at this
  exact ⟨a, ha.1, by simpa using this.1, by simpa using this.2⟩

/-- When every eligible table of the restaurant already carries an active
assignment, the bulk operation throws the all-assigned error and leaves the
store unchanged. -/
theorem assignToRestaurant_all_assigned (s : Store) (rid qid : Nat) (w : Int)
    (hne : eligibleTables s rid ≠ [])
    (hall : ∀ t ∈ eligibleTables s rid, hasActiveAssignmentForTable s t = true) :
    assignQuestionnaireToRestaurant s rid qid w false =
      (Except.error (allAssignedMessage (eligibleTables s rid).length), s) := by
  have hsome : ∀ t ∈ eligibleTables s rid, (qrcodeForTable s t.id).isSome := by
    intro t ht
    exact (List.mem_filter.1 ht).2
  have hpart' : partitionTablesByAssignment s
      ((s.tables.filter (fun t => t.restaurant_id == rid)).filter
        (fun t => (qrcodeForTable s t.id).isSome)) =
      ((eligibleTables s rid).filter (fun t => !hasActiveAssignmentForTable s t),
       ((eligibleTables s rid).filter (fun t => hasActiveAssignmentForTable s t)).map
         (fun t => ⟨t.table_number, existingTitlesForTable s t⟩)) :=
    partitionTablesByAssignment_eq s (eligibleTables s rid) hsome
  have htoassign : (eligibleTables s rid).filter
      (fun t => !hasActiveAssignmentForTable s t) = [] := by
    rw [List.filter_eq_nil_iff]
    intro t ht
    rw [hall t ht]
    decide
  have htabE : (s.tables.filter (fun t => t.restaurant_id == rid)).isEmpty = false := by
    cases htl : s.tables.filter (fun t => t.restaurant_id == rid) with
    | nil => exact absurd (by simp [eligibleTables, htl]) hne
    | cons a l => rfl
  have heligE : ((s.tables.filter (fun t => t.restaurant_id == rid)).filter
      (fun t => (qrcodeForTable s t.id).isSome)).isEmpty = false := by
    cases he : eligibleTables s rid with
    | nil => exact absurd he hne
    | cons a l =>
      show (eligibleTables s rid).isEmpty = false
      rw [he]
      rfl
  simp only [assignQuestionnaireToRestaurant, htabE, Bool.false_eq_true, if_false, heligE,
    hpart', htoassign, List.isEmpty_nil, if_true]
  rfl

/-- C6 (amended): once a bulk restaurant assignment has returned successfully,
every eligible table carries an active Assignment, so running the operation
again — with the same (or any) questionnaire — creates no Assignment at all:
it throws the all-assigned error and returns the store unchanged (in
particular, no duplicate Assignments), rather than returning
`assignedCount = 0`. -/
theorem assignToRestaurant_rerun_all_assigned (s s₁ : Store)
    (res : RestaurantAssignResult) (rid qid : Nat) (w : Int) (qid₂ : Nat) (w₂ : Int)
    (hrun : assignQuestionnaireToRestaurant s rid qid w false = (Except.ok res, s₁)) :
    assignQuestionnaireToRestaurant s₁ rid qid₂ w₂ false =
      (Except.error (allAssignedMessage (eligibleTables s₁ rid).length), s₁) := by
  simp only [assignQuestionnaireToRestaurant, Bool.false_eq_true, if_false] at hrun
  split at hrun
  · simp at hrun
  · split at hrun
    · simp at hrun
    · split at hrun
      · simp at hrun
      · rename_i hg1 hg2 hg3
        split at hrun
        · simp at hrun
        · rename_i s' heq
          rw [Prod.mk.injEq] at hrun
          obtain ⟨hres, hs'⟩ := hrun
          have hshape := insertAssignmentRows_ok_shape _ s s' heq
          rw [hshape] at hs'
          rw [← hs']
          clear hres heq hshape
          have hsome : ∀ t ∈ eligibleTables s rid, (qrcodeForTable s t.id).isSome := by
            intro t ht
            exact (List.mem_filter.1 ht).2
          have hpartS : partitionTablesByAssignment s
              ((s.tables.filter (fun t => t.restaurant_id == rid)).filter
                (fun t => (qrcodeForTable s t.id).isSome)) =
              ((eligibleTables s rid).filter (fun t => !hasActiveAssignmentForTable s t),
               ((eligibleTables s rid).filter
                 (fun t => hasActiveAssignmentForTable s t)).map
                 (fun t => ⟨t.table_number, existingTitlesForTable s t⟩)) :=
            partitionTablesByAssignment_eq s (eligibleTables s rid) hsome
          apply assignToRestaurant_all_assigned
          · show eligibleTables s rid ≠ []
            intro hnil
            apply hg2
            show (eligibleTables s rid).isEmpty = true
            rw [hnil]
            rfl
          · show ∀ t ∈ eligibleTables s rid, _
            intro t ht
            obtain ⟨c, hc⟩ := Option.isSome_iff_exists.1 (hsome t ht)
            have hc₁ : qrcodeForTable
                { s with
                   assignments := s.assignments ++ numberRows s.nextAid
                     ((partitionTablesByAssignment s
                        ((s.tables.filter (fun t => t.restaurant_id == rid)).filter
                          (fun t => (qrcodeForTable s t.id).isSome))).1.map (fun t =>
                       AssignmentInsert.mk
                         (((qrcodeForTable s t.id).map (fun c => c.id)).getD 0) qid true w)),
                   nextAid := s.nextAid +
                     ((partitionTablesByAssignment s
                        ((s.tables.filter (fun t => t.restaurant_id == rid)).filter
                          (fun t => (qrcodeForTable s t.id).isSome))).1.map (fun t =>
                       AssignmentInsert.mk
                         (((qrcodeForTable s t.id).map (fun c => c.id)).getD 0)
                         qid true w)).length } t.id = some c := hc
            unfold hasActiveAssignmentForTable
            rw [hc₁]
            cases hact : hasActiveAssignmentForTable s t with
            | true =>
              have hact' : (checkExistingAssignments s c.id).hasAssignments = true := by
                unfold hasActiveAssignmentForTable at hact
                rw [hc] at hact
                exact hact
              obtain ⟨a, ha, haq, haa⟩ := mem_of_checkExisting_true hact'
              exact checkExisting_true_of_mem (List.mem_append_left _ ha) haq haa
            | false =>
              have htmem : t ∈ (eligibleTables s rid).filter
                  (fun t => !hasActiveAssignmentForTable s t) := by
                rw [List.mem_filter]
                exact ⟨ht, by rw [hact]; rfl⟩
              have hrmem : AssignmentInsert.mk
                  (((qrcodeForTable s t.id).map (fun c => c.id)).getD 0) qid true w ∈
                  (partitionTablesByAssignment s
                    ((s.tables.filter (fun t => t.restaurant_id == rid)).filter
                      (fun t => (qrcodeForTable s t.id).isSome))).1.map (fun t =>
                    AssignmentInsert.mk
                      (((qrcodeForTable s t.id).map (fun c => c.id)).getD 0) qid true w) := by
                rw [hpartS]
                exact List.mem_map.2 ⟨t, htmem, rfl⟩
              obtain ⟨n, hn⟩ := numberRows_mem _ s.nextAid _ hrmem
              have hqr : (((qrcodeForTable s t.id).map (fun c => c.id)).getD 0) = c.id := by
                rw [hc]
                rfl
              apply checkExisting_true_of_mem (List.mem_append_right _ hn)
              · exact hqr
              · rfl

/-- C6 (witness): after the successful run on `exBase`, the rerun on the
resulting store `exAssigned` throws the all-assigned error. -/
theorem assignToRestaurant_rerun_all_assigned_witness :
    assignQuestionnaireToRestaurant exAssigned 1 1 100 false =
      (Except.error (allAssignedMessage (eligibleTables exAssigned 1).length), exAssigned) :=
  assignToRestaurant_rerun_all_assigned exBase exAssigned ⟨1, 0, []⟩ 1 1 100 1 100 (by decide)
